import Mathlib

/-!
Shallow embedding, in Lean 4, of the product-extraction engine of
`src/app.py` (a Flask price-tracking application).  The embedding models the
helper functions (`convert_arabic_numerals`, `extract_numeric_value`,
`extract_keywords`), the three extraction strategies (`extract_salla`,
`extract_zid`, `extract_generic`) and the platform-detection dispatcher
(`extract_product_data`), together with the Python-level semantics they rely
on (truthiness, `float`/`int` conversion, exceptions, `dict.get`, string
methods).  An HTML document is abstracted to exactly the queries the code
performs on it: meta tags, links, the title text, the contents of
`application/ld+json` script tags (already split into unparseable /
absent-string / parsed-JSON, since the code only ever feeds them to
`json.loads`), and the texts of elements carrying a price-like class.
-/

/-- Python exception classes distinguished by the code's `except` clauses. -/
inductive PExc where
  | typeError
  | valueError
  | attrError
  | jsonDecodeError
deriving DecidableEq, Repr

/-- A JSON value, the result of a successful `json.loads`.  Numbers are
modelled as rationals (covering both ints and the decimal floats the pages
carry). -/
inductive Json where
  | null : Json
  | bool : Bool → Json
  | num : ℚ → Json
  | str : String → Json
  | arr : List Json → Json
  | obj : List (String × Json) → Json

/-- Python truthiness of a JSON value (`bool(x)`). -/
def jtruthy : Json → Bool
  | .null => false
  | .bool b => b
  | .num q => decide (q ≠ 0)
  | .str s => decide (s ≠ "")
  | .arr l => !l.isEmpty
  | .obj l => !l.isEmpty

/-- Truthiness of a Python value that may be `None` (`Option Json`). -/
def otruthyJ : Option Json → Bool
  | some j => jtruthy j
  | none => false

/-- Truthiness of a Python string value that may be `None`. -/
def otruthyStr : Option String → Bool
  | some s => decide (s ≠ "")
  | none => false

/-- Truthiness of a float value that may be `None` (`not price`). -/
def qtruthy : Option ℚ → Bool
  | some q => decide (q ≠ 0)
  | none => false

/-- `d.get(k)` on a parsed JSON dict: `none` models Python `None` for a
missing key; a present key returns its value, `Json.null` included. -/
def jget : Json → String → Option Json
  | .obj fs, k => (fs.find? (fun p => p.1 == k)).map (fun p => p.2)
  | _, _ => none

/-- `d.get(k, default)`. -/
def jgetD (j : Json) (k : String) (dflt : Json) : Json :=
  (jget j k).getD dflt

/-- Python `a or b` over possibly-`None` JSON values. -/
def pyOr (a b : Option Json) : Option Json :=
  if otruthyJ a then a else b

/-- The decimal value of an ASCII digit, or of an Arabic-Indic digit
(U+0660 – U+0669); `none` for any other character.  This is the fragment of
Python's Unicode-aware `str.isdigit` / numeric parsing that the pages in
scope exercise. -/
def pyDigitVal (c : Char) : Option Nat :=
  if c.isDigit then some (c.toNat - 48)
  else if 0x660 ≤ c.toNat ∧ c.toNat ≤ 0x669 then some (c.toNat - 0x660)
  else none

/-- `c.isdigit()` restricted to the modelled digit scripts. -/
def isPyDigit (c : Char) : Bool :=
  (pyDigitVal c).isSome

/-- The natural number denoted by a digit string (most significant first). -/
def digitsNat (ds : List Char) : Nat :=
  ds.foldl (fun a c => 10 * a + ((pyDigitVal c).getD 0)) 0

/-- Python whitespace for `str.strip()` (the ASCII fragment). -/
def isPySpace (c : Char) : Bool :=
  c.isWhitespace

/-- `str.strip()` on a character list. -/
def pyStrip (cs : List Char) : List Char :=
  ((cs.dropWhile isPySpace).reverse.dropWhile isPySpace).reverse

/-- `str.strip()`. -/
def strip (s : String) : String :=
  ⟨pyStrip s.data⟩

/-- ASCII lower-casing of one character (`str.lower()` fragment). -/
def asciiLowerChar (c : Char) : Char :=
  if 'A' ≤ c ∧ c ≤ 'Z' then Char.ofNat (c.toNat + 32) else c

/-- `str.lower()` (ASCII fragment). -/
def lowerStr (s : String) : String :=
  ⟨s.data.map asciiLowerChar⟩

/-- `str.split(sep)` on one separator character; Python keeps empty pieces
and returns `[""]` on the empty string. -/
def pySplitChar (sep : Char) : List Char → List (List Char)
  | [] => [[]]
  | c :: rest =>
    if c = sep then [] :: pySplitChar sep rest
    else
      match pySplitChar sep rest with
      | r :: rs => (c :: r) :: rs
      | [] => [[c]]

/-- `s.split(sep)[0]`. -/
def pyHeadSplit (sep : Char) (cs : List Char) : List Char :=
  (pySplitChar sep cs).headD []

/-- Does `needle` stand at the start of `hay`? -/
def startsWithChars : List Char → List Char → Bool
  | [], _ => true
  | _ :: _, [] => false
  | a :: as, b :: bs => a == b && startsWithChars as bs

/-- Python `needle in hay` on strings (substring test). -/
def containsSeq (needle : List Char) : List Char → Bool
  | [] => needle.isEmpty
  | c :: rest => startsWithChars needle (c :: rest) || containsSeq needle rest

/-- Python `needle in hay` on `String`. -/
def containsSub (needle hay : String) : Bool :=
  containsSeq needle.data hay.data

/-- Python `str.replace(old, "")` on character lists: delete every
occurrence of `old` (non-empty), scanning left to right.  The `fuel`
argument only makes the recursion structural; `fuel = cs.length` always
suffices, since each step consumes at least one character. -/
def dropAllSeqAux (old : List Char) : Nat → List Char → List Char
  | 0, _ => []
  | _ + 1, [] => []
  | fuel + 1, c :: rest =>
    if startsWithChars old (c :: rest) then
      dropAllSeqAux old fuel (rest.drop (old.length - 1))
    else
      c :: dropAllSeqAux old fuel rest

/-- `s.replace(old, "")` for a non-empty `old`. -/
def replaceEmpty (s : String) (old : String) : String :=
  ⟨dropAllSeqAux old.data s.data.length s.data⟩

/-- The number part of Python `float(string)` after the sign: an optional
integer part, an optional `.` and fraction part, at least one digit in all,
nothing after. -/
def parseUnsigned (cs : List Char) : Option ℚ :=
  let ip := cs.takeWhile isPyDigit
  let rest := cs.dropWhile isPyDigit
  match rest with
  | [] => if ip.isEmpty then none else some (digitsNat ip : ℚ)
  | c :: rest2 =>
    if c = '.' then
      let fp := rest2.takeWhile isPyDigit
      let rest3 := rest2.dropWhile isPyDigit
      if rest3.isEmpty then
        if ip.isEmpty ∧ fp.isEmpty then none
        else some ((digitsNat ip : ℚ) + (digitsNat fp : ℚ) / (10 : ℚ) ^ fp.length)
      else none
    else none

/-- Sign handling of Python `float(string)`. -/
def parseSigned (cs : List Char) : Option ℚ :=
  match cs with
  | [] => none
  | c :: rest =>
    if c = '-' then (parseUnsigned rest).map (fun q => -q)
    else if c = '+' then parseUnsigned rest
    else parseUnsigned (c :: rest)

/-- Python `float(string)` on the decimal-literal fragment the pages in scope
produce: surrounding whitespace is stripped, then an optionally signed
decimal numeral is read; `none` models the `ValueError` of an unparseable
string (exponents, `inf`, `nan` are outside the modelled fragment). -/
def parsePyFloat (s : String) : Option ℚ :=
  parseSigned (pyStrip s.data)

/-- Truncation of a rational toward zero, as Python `int(float)`. -/
def truncRat (q : ℚ) : ℤ :=
  if 0 ≤ q then ⌊q⌋ else ⌈q⌉

/-- Python `int(string)`: optional sign, digits only. -/
def parsePyInt (s : String) : Option ℤ :=
  match pyStrip s.data with
  | [] => none
  | c :: rest =>
    if c = '-' then
      if rest ≠ [] ∧ rest.all isPyDigit then some (-(digitsNat rest : ℤ)) else none
    else if c = '+' then
      if rest ≠ [] ∧ rest.all isPyDigit then some (digitsNat rest : ℤ) else none
    else if (c :: rest).all isPyDigit then some (digitsNat (c :: rest) : ℤ)
    else none

/-- Python `float(x)` on a JSON value: numbers pass through, strings are
parsed (`ValueError` on failure), booleans convert, anything else raises
`TypeError`. -/
def pyFloatE : Json → Except PExc ℚ
  | .num q => .ok q
  | .str s =>
    match parsePyFloat s with
    | some q => .ok q
    | none => .error .valueError
  | .bool b => .ok (if b then 1 else 0)
  | _ => .error .typeError

/-- Python `int(x)` on a JSON value. -/
def pyIntE : Json → Except PExc ℤ
  | .num q => .ok (truncRat q)
  | .str s =>
    match parsePyInt s with
    | some n => .ok n
    | none => .error .valueError
  | .bool b => .ok (if b then 1 else 0)
  | _ => .error .typeError

/-! ## The document model

`BeautifulSoup(response.text, 'html.parser')` is abstracted to the queries
the code performs on it. -/

/-- A `<meta>` tag: its `property`, `name` and `content` attributes. -/
structure MetaTag where
  prop : Option String
  nameAttr : Option String
  content : Option String
deriving DecidableEq, Repr

/-- A `<link>` tag: its `rel` and `href` attributes. -/
structure LinkTag where
  rel : Option String
  href : Option String
deriving DecidableEq, Repr

/-- What `json.loads(tag.string)` can encounter for one
`<script type="application/ld+json">` tag: the tag has no string
(`tag.string is None`, so `json.loads` raises `TypeError`), its string is
not valid JSON (`json.JSONDecodeError`), or it parses to a JSON value. -/
inductive ScriptContent where
  | absent : ScriptContent
  | malformed : ScriptContent
  | parsed : Json → ScriptContent

/-- A fetched, parsed page: the tags and texts the extractor inspects, in
document order. -/
structure Doc where
  metas : List MetaTag
  links : List LinkTag
  /-- The text of the first `<title>` tag, if the page has one. -/
  title : Option String
  /-- The `application/ld+json` script tags. -/
  scripts : List ScriptContent
  /-- `get_text()` of the `<span>/<div>/<p>` elements whose class contains
  `price`, `prc` or `amount` (the selector of `extract_generic`). -/
  priceTexts : List String

/-- `soup.find('meta', property=p)`. -/
def findMetaProp (doc : Doc) (p : String) : Option MetaTag :=
  doc.metas.find? (fun m => m.prop == some p)

/-- `soup.find('meta', property=[p₁, p₂])` (either property matches). -/
def findMetaProps (doc : Doc) (ps : List String) : Option MetaTag :=
  doc.metas.find? (fun m =>
    match m.prop with
    | some q => ps.contains q
    | none => false)

/-- `soup.find('meta', attrs={'name': n})`. -/
def findMetaName (doc : Doc) (n : String) : Option MetaTag :=
  doc.metas.find? (fun m => m.nameAttr == some n)

/-- `meta.get('content')` guarded by truthiness, as in
`if tag and tag.get('content'):`. -/
def truthyContent : Option String → Option String
  | some s => if s = "" then none else some s
  | none => none

/-! ## Helper functions of `app.py` -/

/-- The translation table `str.maketrans('١٢٣٤٥٦٧٨٩٠', '1234567890')`
applied to one character. -/
def arabicToEnglish (c : Char) : Char :=
  if c = '١' then '1'
  else if c = '٢' then '2'
  else if c = '٣' then '3'
  else if c = '٤' then '4'
  else if c = '٥' then '5'
  else if c = '٦' then '6'
  else if c = '٧' then '7'
  else if c = '٨' then '8'
  else if c = '٩' then '9'
  else if c = '٠' then '0'
  else c

/-- `convert_arabic_numerals` (app.py lines 75–78): translate each
Arabic-Indic digit to its ASCII equivalent, leaving every other character
unchanged. -/
def convert_arabic_numerals (s : String) : String :=
  ⟨s.data.map arabicToEnglish⟩

/-- `extract_numeric_value` (app.py lines 80–86): keep the characters that
satisfy `c.isdigit() or c == '.'`, feed the residue to `float`, and raise
`ValueError` when that fails. -/
def extract_numeric_value (s : String) : Except PExc ℚ :=
  let numeric := s.data.filter (fun c => isPyDigit c || c == '.')
  match parsePyFloat ⟨numeric⟩ with
  | some q => .ok q
  | none => .error .valueError

/-! ## `extract_keywords` (app.py lines 88–127) -/

/-- `keywords.add(x)` on the model of a Python set: a duplicate-free list. -/
def kwAdd (s : List String) (x : String) : List String :=
  if s.contains x then s else s ++ [x]

/-- `keywords.update(xs)`. -/
def kwAddMany (s : List String) (xs : List String) : List String :=
  xs.foldl kwAdd s

/-- `kw.strip().lower()`. -/
def stripLower (cs : List Char) : String :=
  ⟨(pyStrip cs).map asciiLowerChar⟩

/-- The meta-`keywords` step: `soup.find('meta', attrs={'name': 'keywords'})`,
comma-split, strip, lower. -/
def kwFromMeta (doc : Doc) (s : List String) : List String :=
  match findMetaName doc "keywords" with
  | some m =>
    match truthyContent m.content with
    | some c => kwAddMany s ((pySplitChar ',' c.data).map stripLower)
    | none => s
  | none => s

/-- The `article:tag` step. -/
def kwFromArticle (doc : Doc) (s : List String) : List String :=
  match findMetaProp doc "article:tag" with
  | some m =>
    match truthyContent m.content with
    | some c => kwAddMany s ((pySplitChar ',' c.data).map stripLower)
    | none => s
  | none => s

/-- Is the JSON value a string? -/
def isJStr : Json → Bool
  | .str _ => true
  | _ => false

/-- One parsed JSON-LD tag inside `extract_keywords`: a top-level dict with a
`keywords` key contributes its list elements (all must be strings, else the
list comprehension raises `AttributeError`, which the loop catches) or its
comma-split string; other values contribute nothing. -/
def kwTagUpdate (s : List String) (j : Json) : List String :=
  match j with
  | .obj fs =>
    match jget (.obj fs) "keywords" with
    | some (.arr l) =>
      if l.all isJStr then
        kwAddMany s (l.filterMap (fun k =>
          match k with
          | .str t => some (stripLower t.data)
          | _ => none))
      else s
    | some (.str t) => kwAddMany s ((pySplitChar ',' t.data).map stripLower)
    | _ => s
  | _ => s

/-- The JSON-LD loop of `extract_keywords`.  A tag whose string is `None`
raises `TypeError`, which the loop's `except (json.JSONDecodeError,
AttributeError)` does not catch, so it aborts the whole call. -/
def kwScripts (s : List String) : List ScriptContent → Except PExc (List String)
  | [] => .ok s
  | .absent :: _ => .error .typeError
  | .malformed :: rest => kwScripts s rest
  | .parsed j :: rest => kwScripts (kwTagUpdate s j) rest

/-- The `product:category` step. -/
def kwFromCategory (doc : Doc) (s : List String) : List String :=
  match findMetaProp doc "product:category" with
  | some m =>
    match truthyContent m.content with
    | some c => kwAdd s (stripLower c.data)
    | none => s
  | none => s

/-- `', '.join`. -/
def joinCommaSep : List String → String
  | [] => ""
  | [x] => x
  | x :: y :: rest => x ++ ", " ++ joinCommaSep (y :: rest)

/-- Code-point lexicographic comparison of character lists, the order
Python's `sorted` uses on strings. -/
def lexLe : List Char → List Char → Bool
  | [], _ => true
  | _ :: _, [] => false
  | a :: as, b :: bs =>
    if a = b then lexLe as bs else decide (a < b)

/-- `a <= b` on strings, by code points. -/
def strLe (a b : String) : Bool :=
  lexLe a.data b.data

/-- `strLe` as a relation. -/
def strLeProp (a b : String) : Prop :=
  strLe a b = true

instance : DecidableRel strLeProp :=
  fun a b => instDecidableEqBool (strLe a b) true

instance : IsTotal (List Char) (fun a b => lexLe a b = true) where
  total a := by
    induction a with
    | nil => intro b; left; rfl
    | cons x xs ih =>
      intro b
      cases b with
      | nil => right; rfl
      | cons y ys =>
        by_cases hxy : x = y
        · subst hxy
          rcases ih ys with h | h
          · left; simpa [lexLe] using h
          · right; simpa [lexLe] using h
        · rcases Ne.lt_or_lt hxy with h | h
          · left; simp [lexLe, hxy, h]
          · right; simp [lexLe, Ne.symm hxy, h]

instance : IsTrans (List Char) (fun a b => lexLe a b = true) where
  trans a := by
    induction a with
    | nil => intro b c _ _; rfl
    | cons x xs ih =>
      intro b c hab hbc
      cases b with
      | nil => simp [lexLe] at hab
      | cons y ys =>
        cases c with
        | nil => simp [lexLe] at hbc
        | cons z zs =>
          by_cases hxy : x = y <;> by_cases hyz : y = z
          · subst hxy; subst hyz
            simp only [lexLe, if_pos rfl] at *
            exact ih ys zs hab hbc
          · subst hxy
            simp only [lexLe, if_pos rfl, if_neg hyz] at *
            simp [lexLe, hyz, hbc]
          · subst hyz
            simp only [lexLe, if_neg hxy, if_pos rfl] at *
            simp [lexLe, hxy, hab]
          · simp only [lexLe, if_neg hxy, if_neg hyz, decide_eq_true_eq] at hab hbc
            have hxz : x < z := lt_trans hab hbc
            simp [lexLe, ne_of_lt hxz, hxz]

instance : IsAntisymm (List Char) (fun a b => lexLe a b = true) where
  antisymm a := by
    induction a with
    | nil =>
      intro b _ hba
      cases b with
      | nil => rfl
      | cons y ys => simp [lexLe] at hba
    | cons x xs ih =>
      intro b hab hba
      cases b with
      | nil => simp [lexLe] at hab
      | cons y ys =>
        by_cases hxy : x = y
        · subst hxy
          simp only [lexLe, if_pos rfl] at hab hba
          rw [ih ys hab hba]
        · simp only [lexLe, if_neg hxy, if_neg (Ne.symm hxy), decide_eq_true_eq] at hab hba
          exact absurd (lt_trans hab hba) (lt_irrefl x)

instance : IsTotal String strLeProp where
  total a b := IsTotal.total (r := fun a b => lexLe a b = true) a.data b.data

instance : IsTrans String strLeProp where
  trans a b c hab hbc :=
    IsTrans.trans (r := fun a b => lexLe a b = true) a.data b.data c.data hab hbc

instance : IsAntisymm String strLeProp where
  antisymm a b hab hba := by
    have h := IsAntisymm.antisymm (r := fun a b => lexLe a b = true) a.data b.data hab hba
    cases a
    cases b
    exact congrArg String.mk (by simpa using h)

/-- `sorted` on strings, by the code-point lexicographic order Python uses. -/
def sortStrings (l : List String) : List String :=
  List.insertionSort strLeProp l

/-- `extract_keywords` (app.py lines 88–127): collect keywords from the
`keywords` meta tag, the `article:tag` meta tag, the `keywords` fields of
JSON-LD blocks and the `product:category` meta tag into a set, drop empty
strings, and render the sorted set comma-joined (`None` when empty). -/
def extract_keywords (doc : Doc) : Except PExc (Option String) :=
  match kwScripts (kwFromArticle doc (kwFromMeta doc [])) doc.scripts with
  | .error e => .error e
  | .ok s =>
    let s := kwFromCategory doc s
    let s := s.filter (fun k => k ≠ "")
    if s.isEmpty then .ok none else .ok (some (joinCommaSep (sortStrings s)))

/-! ## The claim's description of keyword extraction (for C8)

A second definition written from the spec sentence: the union of four
sources, lowercased and trimmed, empty strings discarded, deduplicated,
sorted alphabetically, comma-joined. -/

/-- The values a parsed JSON-LD block contributes, per the spec: its
`keywords` field when that is a string (comma-split) or a list of strings. -/
def specTagVals : Json → List String
  | .obj fs =>
    match jget (.obj fs) "keywords" with
    | some (.arr l) =>
      if l.all isJStr then
        l.filterMap (fun k =>
          match k with
          | .str t => some (stripLower t.data)
          | _ => none)
      else []
    | some (.str t) => (pySplitChar ',' t.data).map stripLower
    | _ => []
  | _ => []

/-- The comma-split values of a meta tag with truthy content. -/
def specMetaVals (m : Option MetaTag) : List String :=
  match m with
  | some t =>
    match truthyContent t.content with
    | some c => (pySplitChar ',' c.data).map stripLower
    | none => []
  | none => []

/-- The detected category as an extra keyword. -/
def specCategoryVals (doc : Doc) : List String :=
  match findMetaProp doc "product:category" with
  | some t =>
    match truthyContent t.content with
    | some c => [stripLower c.data]
    | none => []
  | none => []

/-- Keyword extraction as claim C8 words it: union of the comma-split
`keywords` meta values, the comma-split `article:tag` values, the `keywords`
fields of structured-data blocks and the detected category, lowercased and
trimmed, empty strings discarded, duplicates removed, sorted alphabetically
and comma-joined (`none` when nothing remains). -/
def keywordsSpec (doc : Doc) : Option String :=
  let vals :=
    specMetaVals (findMetaName doc "keywords")
      ++ specMetaVals (findMetaProp doc "article:tag")
      ++ (doc.scripts.foldr (fun sc acc =>
            match sc with
            | .parsed j => specTagVals j ++ acc
            | _ => acc) [])
      ++ specCategoryVals doc
  let kept := (vals.filter (fun k => k ≠ "")).dedup
  if kept.isEmpty then none else some (joinCommaSep (sortStrings kept))

/-! ## The plausibility correction (for C4)

No function of `src/app.py` implements the spec's `plausibilityCorrect`;
the definitions below are modelled from the spec's words (§4.2): for an
amount over 10,000 units, re-derive the value from the first match of the
regular expression `\d+\.?\d{0,2}` against the amount's string form. -/

/-- The decimal digit character of `k % 10`. -/
def digitChar (k : Nat) : Char :=
  match k with
  | 0 => '0'
  | 1 => '1'
  | 2 => '2'
  | 3 => '3'
  | 4 => '4'
  | 5 => '5'
  | 6 => '6'
  | 7 => '7'
  | 8 => '8'
  | 9 => '9'
  | _ => '0'

/-- Digits of a natural number, most significant first.  `fuel = n + 1`
always suffices (the argument is divided by ten every step). -/
def natDigitsAux : Nat → Nat → List Char → List Char
  | 0, _, acc => acc
  | fuel + 1, n, acc =>
    if n < 10 then digitChar n :: acc
    else natDigitsAux fuel (n / 10) (digitChar (n % 10) :: acc)

/-- The decimal rendering of a natural number. -/
def natDigits (n : Nat) : List Char :=
  natDigitsAux (n + 1) n []

/-- Modelled from the spec: an amount as the finite decimal the normalizer
produced — an integer part and a list of fraction digit characters — which
fixes the amount's string form the way Python `str(float)` renders a plain
decimal (always with a fraction part, `"15000.0"` for 15000). -/
structure Dec where
  intPart : Nat
  fracDigits : List Char

/-- The string form of the amount. -/
def decRender (d : Dec) : List Char :=
  natDigits d.intPart ++ '.' :: (if d.fracDigits.isEmpty then ['0'] else d.fracDigits)

/-- The numeric value of the amount. -/
def decVal (d : Dec) : ℚ :=
  (d.intPart : ℚ) + (digitsNat d.fracDigits : ℚ) / (10 : ℚ) ^ d.fracDigits.length

/-- The match of `\d+\.?\d{0,2}` anchored at a digit: the maximal leading
digit run, then optionally a `.` and up to two more digits (greedy). -/
def reMatchAt (cs : List Char) : List Char :=
  let ds := cs.takeWhile Char.isDigit
  let rest := cs.dropWhile Char.isDigit
  match rest with
  | [] => ds
  | c :: rest2 =>
    if c = '.' then ds ++ '.' :: (rest2.takeWhile Char.isDigit).take 2
    else ds

/-- The first (leftmost) match of `\d+\.?\d{0,2}` in a string, as
`re.search` finds it. -/
def reFirstMatch : List Char → Option (List Char)
  | [] => none
  | c :: rest =>
    if c.isDigit then some (reMatchAt (c :: rest))
    else reFirstMatch rest

/-- Modelled from the spec: `plausibilityCorrect(amount)` — when the amount
exceeds 10,000 units, re-derive it by parsing the first
`\d+\.?\d{0,2}` match of its string form; otherwise return it unchanged. -/
def plausibilityCorrect (d : Dec) : ℚ :=
  if 10000 < decVal d then
    match reFirstMatch (decRender d) with
    | some m => (parsePyFloat ⟨m⟩).getD (decVal d)
    | none => decVal d
  else decVal d

/-! ## The product record -/

/-- The dictionary a strategy returns.  Fields hold Python values: `none` is
Python `None`; `name`, `brand`, … hold whatever the source supplied (a JSON
value — the Zid and generic strategies store raw JSON-LD values, the Salla
strategy stores strings); `price` and `rating` are floats, `review_count`
an int, `keywords` the comma-joined string of `extract_keywords`. -/
structure ProductData where
  name : Option Json
  price : Option ℚ
  brand : Option Json
  description : Option Json
  image_url : Option Json
  stock_status : Option Json
  rating : Option ℚ
  review_count : Option ℤ
  sku : Option Json
  category : Option Json
  keywords : Option String
  website : Option String

/-- The all-`None` dictionary `extract_generic` starts from (app.py lines
341–353); also the blank the other strategies fill in. -/
def initData : ProductData :=
  { name := none, price := none, brand := none, description := none,
    image_url := none, stock_status := none, rating := none,
    review_count := none, sku := none, category := none, keywords := none,
    website := none }

/-! ## `extract_salla` (app.py lines 130–235) -/

/-- The name block of `extract_salla` (lines 137–147): `og:title` content
stripped when truthy, else the `<title>` text split on `'-'`, first
segment, stripped. -/
def sallaName (doc : Doc) : Option String :=
  let name : Option String :=
    match findMetaProp doc "og:title" with
    | some m => (truthyContent m.content).map strip
    | none => none
  if otruthyStr name then name
  else
    match doc.title with
    | some t => some ⟨pyStrip (pyHeadSplit '-' t.data)⟩
    | none => name

/-- The `product:sale_price:amount` overwrite of the price block (lines
154–156): `float` of the content when truthy, a parse failure raising. -/
def sallaSale (doc : Doc) (p : Option ℚ) : Except PExc (Option ℚ) :=
  match findMetaProp doc "product:sale_price:amount" with
  | some m =>
    match truthyContent m.content with
    | some c =>
      match parsePyFloat c with
      | some q => .ok (some q)
      | none => .error .valueError
    | none => .ok p
  | none => .ok p

/-- The price block of `extract_salla` (lines 149–156):
`product:price:amount`, then `product:sale_price:amount` overwriting it. -/
def sallaPrice (doc : Doc) : Except PExc (Option ℚ) :=
  match findMetaProp doc "product:price:amount" with
  | some m =>
    match truthyContent m.content with
    | some c =>
      match parsePyFloat c with
      | some q => sallaSale doc (some q)
      | none => .error .valueError
    | none => sallaSale doc none
  | none => sallaSale doc none

/-- A truthy-content meta lookup stripped, as the Salla secondary-field
blocks do. -/
def sallaMetaStripped (m : Option MetaTag) : Option String :=
  match m with
  | some t => (truthyContent t.content).map strip
  | none => none

/-- The description block (lines 166–174): meta `name="description"`, else
`og:description`. -/
def sallaDescription (doc : Doc) : Option String :=
  let d := sallaMetaStripped (findMetaName doc "description")
  if otruthyStr d then d
  else
    match findMetaProp doc "og:description" with
    | some t => (truthyContent t.content).map strip
    | none => d

/-- The stock-status block (lines 182–186): `product:availability` content
lowered. -/
def sallaStock (doc : Doc) : Option String :=
  match findMetaProp doc "product:availability" with
  | some t => (truthyContent t.content).map lowerStr
  | none => none

/-- The rating/review loop of `extract_salla` (lines 200–214): scan the
JSON-LD tags; on a dict whose `@type` equals `'Product'` exactly, read
`aggregateRating` when truthy (float/int conversion failures are caught and
skip to the next tag, a successful pair breaks; a falsy `aggregateRating`
breaks with the values so far). -/
def sallaRating (rating : Option ℚ) (review : Option ℤ) :
    List ScriptContent → Option ℚ × Option ℤ
  | [] => (rating, review)
  | sc :: rest =>
    match sc with
    | .parsed j =>
      match j with
      | .obj fs =>
        if (match jget (.obj fs) "@type" with
            | some (.str s) => s == "Product"
            | _ => false) then
          let agg := jgetD (.obj fs) "aggregateRating" (.obj [])
          if jtruthy agg then
            match agg with
            | .obj ao =>
              match pyFloatE (jgetD (.obj ao) "ratingValue" (.num 0)) with
              | .error _ => sallaRating rating review rest
              | .ok q =>
                match pyIntE (jgetD (.obj ao) "reviewCount" (.num 0)) with
                | .error _ => sallaRating (some q) review rest
                | .ok n => (some q, some n)
            | _ => sallaRating rating review rest
          else (rating, review)
        else sallaRating rating review rest
      | _ => sallaRating rating review rest
    | _ => sallaRating rating review rest

/-- `extract_salla` (app.py lines 130–235): name and price from meta tags
(each raising when its chain is exhausted or its value falsy), secondary
fields from meta tags, rating/review from JSON-LD, keywords from
`extract_keywords`. -/
def extract_salla (doc : Doc) : Except PExc ProductData :=
  let name := sallaName doc
  if ¬ otruthyStr name then .error .valueError
  else
    match sallaPrice doc with
    | .error e => .error e
    | .ok price =>
      if ¬ qtruthy price then .error .valueError
      else
        let rr := sallaRating none none doc.scripts
        match extract_keywords doc with
        | .error e => .error e
        | .ok kw =>
          .ok { name := name.map .str,
                price := price,
                brand := (sallaMetaStripped (findMetaProp doc "product:brand")).map .str,
                description := (sallaDescription doc).map .str,
                image_url := (sallaMetaStripped (findMetaProp doc "og:image")).map .str,
                stock_status := (sallaStock doc).map .str,
                rating := rr.1,
                review_count := rr.2,
                sku := (sallaMetaStripped (findMetaProp doc "product:retailer_item_id")).map .str,
                category := (sallaMetaStripped (findMetaProp doc "product:category")).map .str,
                keywords := kw,
                website := none }

/-! ## `extract_zid` (app.py lines 238–330) -/

/-- The JSON-LD scan of `extract_zid` (lines 245–254): the first tag that
parses to a dict whose `@type`, lowered, is `'product'`; every exception in
the loop is caught and skips the tag. -/
def zidFindProduct : List ScriptContent → Option Json
  | [] => none
  | sc :: rest =>
    match sc with
    | .parsed j =>
      match j with
      | .obj fs =>
        if (match jgetD (.obj fs) "@type" (.str "") with
            | .str s => lowerStr s == "product"
            | _ => false) then some (.obj fs)
        else zidFindProduct rest
      | _ => zidFindProduct rest
    | _ => zidFindProduct rest

/-- `offers[0] if offers else {}` after `offers = data.get('offers', {})`. -/
def normOffers : Json → Json
  | .arr l => l.headD (.obj [])
  | o => o

/-- The brand block of `extract_zid` (lines 272–275). -/
def zidBrand (pd : Json) : Option Json :=
  match jget pd "brand" with
  | some (.obj o) => jget (.obj o) "name"
  | b => b

/-- The image block (lines 280–283): first element of a list. -/
def zidImage (pd : Json) : Option Json :=
  match jget pd "image" with
  | some (.arr l) => l.head?
  | i => i

/-- The stock-status block (lines 288–291): the `availability` value (a
non-string raises `AttributeError`, aborting the strategy) with the
`http://schema.org/` prefix removed, lowered when non-empty. -/
def zidStock (offers : Json) : Except PExc Json :=
  match jgetD offers "availability" (.str "") with
  | .str av =>
    let r := replaceEmpty av "http://schema.org/"
    .ok (.str (if r ≠ "" then lowerStr r else r))
  | _ => .error .attrError

/-- The rating/review block (lines 293–302): on a truthy `aggregateRating`
dict, convert `ratingValue` and `reviewCount`, swallowing
`ValueError`/`TypeError` (a failing `int` keeps an already assigned
rating); a truthy non-dict raises `AttributeError`, aborting the
strategy. -/
def zidRating (pd : Json) : Except PExc (Option ℚ × Option ℤ) :=
  let agg := jgetD pd "aggregateRating" (.obj [])
  if jtruthy agg then
    match agg with
    | .obj ao =>
      match pyFloatE (jgetD (.obj ao) "ratingValue" (.num 0)) with
      | .error _ => .ok (none, none)
      | .ok q =>
        match pyIntE (jgetD (.obj ao) "reviewCount" (.num 0)) with
        | .error _ => .ok (some q, none)
        | .ok n => .ok (some q, some n)
    | _ => .error .attrError
  else .ok (none, none)

/-- The category block (lines 304–309). -/
def zidCategory (pd : Json) : Option Json :=
  match jget pd "category" with
  | some (.obj o) => jget (.obj o) "name"
  | some c => some c
  | none => none

/-- `extract_zid` (app.py lines 238–330): everything comes from the first
JSON-LD Product block; a missing block, falsy `name` or falsy raw `price`
raises, and the raw price is converted with `float` only when the record is
built. -/
def extract_zid (doc : Doc) : Except PExc ProductData :=
  match zidFindProduct doc.scripts with
  | none => .error .valueError
  | some pd =>
    let name := jget pd "name"
    if ¬ otruthyJ name then .error .valueError
    else
      let offers := normOffers (jgetD pd "offers" (.obj []))
      match offers with
      | .obj ofs =>
        let priceRaw := jget (.obj ofs) "price"
        if ¬ otruthyJ priceRaw then .error .valueError
        else
          match zidStock (.obj ofs) with
          | .error e => .error e
          | .ok stock =>
            match zidRating pd with
            | .error e => .error e
            | .ok rr =>
              match extract_keywords doc with
              | .error e => .error e
              | .ok kw =>
                match pyFloatE (priceRaw.getD .null) with
                | .error e => .error e
                | .ok q =>
                  .ok { name := name,
                        price := some q,
                        brand := zidBrand pd,
                        description := jget pd "description",
                        image_url := zidImage pd,
                        stock_status := some stock,
                        rating := rr.1,
                        review_count := rr.2,
                        sku := pyOr (jget pd "sku") (jget pd "productID"),
                        category := zidCategory pd,
                        keywords := kw,
                        website := none }
      | _ => .error .attrError

/-! ## `extract_generic` (app.py lines 333–469) -/

/-- How one iteration of the JSON-LD loop of `extract_generic` ends: it
`break`s (a Product block was fully processed), falls through to the next
tag, or raises (the loop catches `JSONDecodeError`, `ValueError` and
`AttributeError` and continues with the mutations made so far; a
`TypeError` — `json.loads(None)`, `float` of a list — propagates). -/
inductive TagOut where
  | br : TagOut
  | cont : TagOut
  | exc : PExc → TagOut

/-- One iteration of the loop at app.py lines 357–392, threading the
mutable `data` dict: the tag's JSON is inspected and, on a dict with
`@type` lowering to `'product'`, the fields are assigned one by one; an
exception leaves the assignments already made in place. -/
def tagStep (d : ProductData) (sc : ScriptContent) : ProductData × TagOut :=
  match sc with
  | .absent => (d, .exc .typeError)
  | .malformed => (d, .exc .jsonDecodeError)
  | .parsed j =>
    match j with
    | .obj fs =>
      match jgetD (.obj fs) "@type" (.str "") with
      | .str ty =>
        if lowerStr ty == "product" then
          let d1 := { d with name := jget (.obj fs) "name" }
          let offers := normOffers (jgetD (.obj fs) "offers" (.obj []))
          match offers with
          | .obj ofs =>
            match pyFloatE (jgetD (.obj ofs) "price" (.num 0)) with
            | .error e => (d1, .exc e)
            | .ok q =>
              let d2 := { d1 with price := if q = 0 then none else some q }
              let d3 := { d2 with brand :=
                (match jget (.obj fs) "brand" with
                 | some (.obj bo) => jget (.obj bo) "name"
                 | b => b) }
              let d4 := { d3 with description := jget (.obj fs) "description" }
              let d5 := { d4 with image_url :=
                (match jget (.obj fs) "image" with
                 | some (.arr l) => l.head?
                 | i => i) }
              let d6 := { d5 with sku :=
                (pyOr (jget (.obj fs) "sku") (jget (.obj fs) "productID")) }
              match (if jtruthy (.obj ofs) then
                       match jgetD (.obj ofs) "availability" (.str "") with
                       | .str av => Except.ok (some (Json.str (lowerStr av)))
                       | _ => Except.error PExc.attrError
                     else Except.ok none) with
              | .error e => (d6, .exc e)
              | .ok st =>
                let d7 := { d6 with stock_status := st }
                let agg := jgetD (.obj fs) "aggregateRating" (.obj [])
                if jtruthy agg then
                  match agg with
                  | .obj ao =>
                    match pyFloatE (jgetD (.obj ao) "ratingValue" (.num 0)) with
                    | .error _ => (d7, .br)
                    | .ok qr =>
                      let d8 := { d7 with rating := if qr = 0 then none else some qr }
                      match pyIntE (jgetD (.obj ao) "reviewCount" (.num 0)) with
                      | .error _ => (d8, .br)
                      | .ok n =>
                        ({ d8 with review_count := if n = 0 then none else some n }, .br)
                  | _ => (d7, .exc .attrError)
                else (d7, .br)
          | _ => (d1, .exc .attrError)
        else (d, .cont)
      | _ => (d, .exc .attrError)
    | _ => (d, .cont)

/-- The JSON-LD loop of `extract_generic`: caught exceptions keep the
partial mutations and continue; a `TypeError` aborts the strategy. -/
def genericLdPass (d : ProductData) : List ScriptContent → Except PExc ProductData
  | [] => .ok d
  | sc :: rest =>
    match tagStep d sc with
    | (d', .br) => .ok d'
    | (d', .cont) => genericLdPass d' rest
    | (d', .exc e) =>
      if e = .jsonDecodeError ∨ e = .valueError ∨ e = .attrError then
        genericLdPass d' rest
      else .error e

/-- The name fallback of `extract_generic` (lines 394–407): `og:title`
content (assigned unconditionally when the tag exists), then the `<title>`
text split on `'-'` then `'|'`, first segment, stripped. -/
def genericNameFb (d : ProductData) (doc : Doc) : ProductData :=
  if otruthyJ d.name then d
  else
    let d :=
      match findMetaProp doc "og:title" with
      | some m => { d with name := m.content.map .str }
      | none => d
    if otruthyJ d.name then d
    else
      match doc.title with
      | some t => { d with name := some (.str ⟨pyStrip (pyHeadSplit '|' (pyHeadSplit '-' t.data))⟩) }
      | none => d

/-- The price-element loop of `extract_generic` (lines 420–433): each
element's stripped text goes through `extract_numeric_value`; a truthy
value is stored and breaks, a failure or falsy value skips the element. -/
def priceElemLoop (d : ProductData) : List String → ProductData
  | [] => d
  | t :: rest =>
    match extract_numeric_value (strip t) with
    | .ok v => if v ≠ 0 then { d with price := some v } else priceElemLoop d rest
    | .error _ => priceElemLoop d rest

/-- The price fallback of `extract_generic` (lines 409–433):
`og:price:amount` / `product:price:amount` (a missing `content` attribute
becomes `float(0)`, a parse failure is swallowed), then the price-class
elements. -/
def genericPriceFb (d : ProductData) (doc : Doc) : ProductData :=
  if qtruthy d.price then d
  else
    let d :=
      match findMetaProps doc ["og:price:amount", "product:price:amount"] with
      | some m =>
        match (match m.content with
               | some c => parsePyFloat c
               | none => some 0) with
        | some q => { d with price := some q }
        | none => d
      | none => d
    if qtruthy d.price then d
    else priceElemLoop d doc.priceTexts

/-- The description fallback (lines 435–443). -/
def genericDescFb (d : ProductData) (doc : Doc) : ProductData :=
  if otruthyJ d.description then d
  else
    let d :=
      match findMetaName doc "description" with
      | some m => { d with description := m.content.map .str }
      | none => d
    if otruthyJ d.description then d
    else
      match findMetaProp doc "og:description" with
      | some m => { d with description := m.content.map .str }
      | none => d

/-- The image fallback (lines 445–449). -/
def genericImageFb (d : ProductData) (doc : Doc) : ProductData :=
  if otruthyJ d.image_url then d
  else
    match findMetaProp doc "og:image" with
    | some m => { d with image_url := m.content.map .str }
    | none => d

/-- The brand fallback (lines 451–455). -/
def genericBrandFb (d : ProductData) (doc : Doc) : ProductData :=
  if otruthyJ d.brand then d
  else
    match findMetaProps doc ["og:brand", "product:brand"] with
    | some m => { d with brand := m.content.map .str }
    | none => d

/-- `extract_generic` (app.py lines 333–469): JSON-LD first, then the meta
and element fallbacks, keywords, and the final `name`/`price` validation
that raises on a falsy required field. -/
def extract_generic (doc : Doc) : Except PExc ProductData :=
  match genericLdPass initData doc.scripts with
  | .error e => .error e
  | .ok d0 =>
    let d1 := genericNameFb d0 doc
    let d2 := genericPriceFb d1 doc
    let d3 := genericDescFb d2 doc
    let d4 := genericImageFb d3 doc
    let d5 := genericBrandFb d4 doc
    match extract_keywords doc with
    | .error e => .error e
    | .ok kw =>
      let d6 := { d5 with keywords := kw }
      if ¬ otruthyJ d6.name then .error .valueError
      else if ¬ qtruthy d6.price then .error .valueError
      else .ok d6

/-! ## The dispatcher `extract_product_data` (app.py lines 472–521) -/

/-- The Salla detection (lines 489–493): the `product:retailer_item_id`
meta tag, a `product:price:currency` meta tag with content `SAR`, or a
canonical link whose `href` contains `salla.sa`. -/
def is_salla (doc : Doc) : Bool :=
  (findMetaProp doc "product:retailer_item_id").isSome
  || (doc.metas.find? (fun m =>
        m.prop == some "product:price:currency" && m.content == some "SAR")).isSome
  || (doc.links.find? (fun l =>
        l.rel == some "canonical"
        && (match l.href with
            | some h => containsSub "salla.sa" h
            | none => false))).isSome

/-- Does one JSON-LD tag carry a dict whose `@type` lowers to `'product'`?
(Any exception while testing the tag is caught and counts as no.) -/
def isZidProductTag : ScriptContent → Bool
  | .parsed (.obj fs) =>
    (match jgetD (.obj fs) "@type" (.str "") with
     | .str s => lowerStr s == "product"
     | _ => false)
  | _ => false

/-- The Zid detection (lines 496–506), only reached when Salla did not
match. -/
def is_zid (doc : Doc) : Bool :=
  doc.scripts.any isZidProductTag

/-- The strategies the dispatcher can pick. -/
inductive Strategy where
  | salla
  | zid
  | generic
deriving DecidableEq, Repr

/-- The strategy selection of `extract_product_data` (lines 489–514): Salla
signals first, Zid only when Salla did not match, else generic. -/
def selectStrategy (doc : Doc) : Strategy :=
  if is_salla doc then .salla
  else if is_zid doc then .zid
  else .generic

/-- `extract_product_data` after the fetch (app.py lines 485–517): run the
selected strategy on the parsed page and attach the lowercase domain as
`website`. -/
def extract_product_data (doc : Doc) (domain : String) : Except PExc ProductData :=
  let r :=
    match selectStrategy doc with
    | .salla => extract_salla doc
    | .zid => extract_zid doc
    | .generic => extract_generic doc
  r.map (fun data => { data with website := some (lowerStr domain) })

/-! ## Concrete documents and records used by the witnesses and
counterexamples -/

/-- A Salla-shaped page (the retailer-item meta tag routes it to the Salla
strategy): an `og:title` and a `product:price:amount`. -/
def w1doc : Doc :=
  { metas := [⟨some "product:retailer_item_id", none, some "S1"⟩,
              ⟨some "og:title", none, some "P"⟩,
              ⟨some "product:price:amount", none, some "10"⟩],
    links := [], title := none, scripts := [], priceTexts := [] }

/-- What `extract_salla` returns on `w1doc`. -/
def w1rec : ProductData :=
  { initData with
    name := some (.str "P"), price := some 10, sku := some (.str "S1") }

/-- A Zid-shaped page: one JSON-LD Product block. -/
def w2doc : Doc :=
  { metas := [], links := [], title := none,
    scripts := [.parsed (.obj [("@type", .str "Product"),
                               ("name", .str "N"),
                               ("offers", .obj [("price", .str "9")])])],
    priceTexts := [] }

/-- What `extract_zid` returns on `w2doc`. -/
def w2rec : ProductData :=
  { initData with
    name := some (.str "N"), price := some 9,
    stock_status := some (.str "") }

/-- A generic page: an `og:title` and an `og:price:amount`. -/
def w3doc : Doc :=
  { metas := [⟨some "og:title", none, some "G"⟩,
              ⟨some "og:price:amount", none, some "7"⟩],
    links := [], title := none, scripts := [], priceTexts := [] }

/-- What `extract_generic` returns on `w3doc`. -/
def w3rec : ProductData :=
  { initData with name := some (.str "G"), price := some 7 }

/-- A page carrying both the Salla `product:retailer_item_id` signal and a
JSON-LD Product block. -/
def c3doc : Doc :=
  { metas := [⟨some "product:retailer_item_id", none, some "123"⟩],
    links := [], title := none,
    scripts := [.parsed (.obj [("@type", .str "Product")])],
    priceTexts := [] }

/-- A Zid page whose JSON-LD price is the truthy string `"0"`. -/
def zidZeroDoc : Doc :=
  { metas := [], links := [], title := none,
    scripts := [.parsed (.obj [("@type", .str "Product"),
                               ("name", .str "X"),
                               ("offers", .obj [("price", .str "0")])])],
    priceTexts := [] }

/-- A Salla page (the retailer-item meta tag routes it to the Salla
strategy) whose JSON-LD Product block names the product `A` while
`og:title` names it `B`. -/
def c5doc : Doc :=
  { metas := [⟨some "product:retailer_item_id", none, some "S2"⟩,
              ⟨some "og:title", none, some "B"⟩,
              ⟨some "product:price:amount", none, some "10"⟩],
    links := [], title := none,
    scripts := [.parsed (.obj [("@type", .str "Product"),
                               ("name", .str "A")])],
    priceTexts := [] }

/-- What `extract_salla` returns on `c5doc`. -/
def c5rec : ProductData :=
  { initData with
    name := some (.str "B"), price := some 10, sku := some (.str "S2") }

/-- A page with a `keywords` meta tag. -/
def kwDoc : Doc :=
  { metas := [⟨none, some "keywords", some "Shoes, shoes, Running"⟩],
    links := [], title := none, scripts := [], priceTexts := [] }

/-- `kwDoc` with one JSON-LD script tag that has no string
(`tag.string is None`). -/
def kwAbsentDoc : Doc :=
  { metas := [⟨none, some "keywords", some "Shoes, shoes, Running"⟩],
    links := [], title := none, scripts := [.absent], priceTexts := [] }

/-- A generic page whose JSON-LD Product block carries a zero price and a
zero rating, plus an `og:price:amount` meta tag the fallback can use. -/
def c9doc : Doc :=
  { metas := [⟨some "og:price:amount", none, some "5"⟩],
    links := [], title := none,
    scripts := [.parsed (.obj
      [("@type", .str "Product"),
       ("name", .str "W"),
       ("offers", .obj [("price", .num 0)]),
       ("aggregateRating", .obj [("ratingValue", .num 0),
                                 ("reviewCount", .num 0)])])],
    priceTexts := [] }

/-- What `extract_generic` returns on `c9doc`. -/
def c9rec : ProductData :=
  { initData with
    name := some (.str "W"), price := some 5,
    stock_status := some (.str "") }

/-! ## Definitions used to state the claims about name recovery (C5) and
the zero-coercion invariant (C9) -/

/-- The first truthy entry of a chain of optional strings (`none` when all
are falsy). -/
def firstTruthyStr : List (Option String) → Option String
  | [] => none
  | o :: rest => if otruthyStr o then o else firstTruthyStr rest

/-- The first truthy entry of a chain of optional JSON values. -/
def firstTruthyJ : List (Option Json) → Option Json
  | [] => none
  | o :: rest => if otruthyJ o then o else firstTruthyJ rest

/-- Claim C5's first name source, per the spec's words: the `name` field of
the structured-data (Product) block. -/
def claimSdName (doc : Doc) : Option String :=
  doc.scripts.findSome? (fun sc =>
    match sc with
    | .parsed (.obj fs) =>
      if (match jgetD (.obj fs) "@type" (.str "") with
          | .str s => lowerStr s == "product"
          | _ => false) then
        match jget (.obj fs) "name" with
        | some (.str n) => some n
        | _ => none
      else none
    | _ => none)

/-- Claim C5's second name source: the Open-Graph title meta tag. -/
def claimOgTitle (doc : Doc) : Option String :=
  (findMetaProp doc "og:title").bind (fun m => m.content)

/-- Claim C5's third name source: the page `<title>`, split on `'-'` or
`'|'`, first segment, trimmed. -/
def claimTitleSeg (doc : Doc) : Option String :=
  doc.title.map (fun t => ⟨pyStrip (pyHeadSplit '|' (pyHeadSplit '-' t.data))⟩)

/-- The name recovery order claim C5 asserts for every strategy:
structured-data name, then Open-Graph title, then split title, first
non-empty result winning. -/
def claimNameChain (doc : Doc) : Option String :=
  firstTruthyStr [claimSdName doc, claimOgTitle doc, claimTitleSeg doc]

/-- The first entry of the name chain `extract_salla` actually implements:
`og:title` content, stripped, when truthy. -/
def sallaOgEntry (doc : Doc) : Option String :=
  match findMetaProp doc "og:title" with
  | some m => (truthyContent m.content).map strip
  | none => none

/-- The second entry: the `<title>` text split on `'-'` only, first
segment, stripped. -/
def sallaTitleEntry (doc : Doc) : Option String :=
  doc.title.map (fun t => ⟨pyStrip (pyHeadSplit '-' t.data)⟩)

/-- The `og:title` entry of the generic strategy's name chain: the raw
`content` attribute (not stripped, absent content giving `None`). -/
def genericOgEntry (doc : Doc) : Option Json :=
  match findMetaProp doc "og:title" with
  | some m => m.content.map .str
  | none => none

/-- The `<title>` entry of the generic strategy's name chain: split on
`'-'` then `'|'`, first segment, stripped. -/
def genericTitleEntry (doc : Doc) : Option Json :=
  doc.title.map (fun t => .str ⟨pyStrip (pyHeadSplit '|' (pyHeadSplit '-' t.data))⟩)

/-- An optional float that is never a stored zero: absent, or present and
non-zero (how the generic strategy's `... or None` leaves `rating`). -/
def nzOptQ (o : Option ℚ) : Prop :=
  o = none ∨ ∃ q, o = some q ∧ q ≠ 0

/-- An optional int that is never a stored zero. -/
def nzOptZ (o : Option ℤ) : Prop :=
  o = none ∨ ∃ n, o = some n ∧ n ≠ 0

/-- A generic page whose only JSON-LD block is not a Product (`@type` is
`Article`). -/
def c10doc : Doc :=
  { metas := [⟨some "og:title", none, some "T"⟩,
              ⟨some "og:price:amount", none, some "3"⟩],
    links := [], title := none,
    scripts := [.parsed (.obj [("@type", .str "Article"), ("name", .str "Z")])],
    priceTexts := [] }

/-- What `extract_generic` returns on `c10doc`. -/
def c10rec : ProductData :=
  { initData with name := some (.str "T"), price := some 3 }

/-- Is `c` one of the ten Arabic-Indic digits the translation table maps? -/
def isArabicDigit (c : Char) : Bool :=
  c == '١' || c == '٢' || c == '٣' || c == '٤' || c == '٥'
    || c == '٦' || c == '٧' || c == '٨' || c == '٩' || c == '٠'

/-! ## Theorems -/

theorem arabicToEnglish_of_other (c : Char) (h : isArabicDigit c = false) :
    arabicToEnglish c = c := by
  simp only [isArabicDigit, Bool.or_eq_false_iff, beq_eq_false_iff_ne, ne_eq] at h
  obtain ⟨⟨⟨⟨⟨⟨⟨⟨⟨h1, h2⟩, h3⟩, h4⟩, h5⟩, h6⟩, h7⟩, h8⟩, h9⟩, h0⟩ := h
  unfold arabicToEnglish
  simp [h1, h2, h3, h4, h5, h6, h7, h8, h9, h0]

theorem arabicToEnglish_idem (c : Char) :
    arabicToEnglish (arabicToEnglish c) = arabicToEnglish c := by
  by_cases h : isArabicDigit c = true
  · simp only [isArabicDigit, Bool.or_eq_true, beq_iff_eq] at h
    rcases h with ((((((((h | h) | h) | h) | h) | h) | h) | h) | h) | h <;>
      subst h <;> decide
  · have h' : isArabicDigit c = false := by simpa using h
    rw [arabicToEnglish_of_other c h', arabicToEnglish_of_other c h']

theorem arabicToEnglish_of_ascii (c : Char) (h : c.toNat < 128) :
    arabicToEnglish c = c := by
  apply arabicToEnglish_of_other
  by_contra hne
  have h' : isArabicDigit c = true := by simpa using hne
  simp only [isArabicDigit, Bool.or_eq_true, beq_iff_eq] at h'
  rcases h' with ((((((((h' | h') | h') | h') | h') | h') | h') | h') | h') | h' <;>
    subst h' <;> exact absurd h (by decide)

theorem map_arabicToEnglish_idem (l : List Char) :
    (l.map arabicToEnglish).map arabicToEnglish = l.map arabicToEnglish := by
  induction l with
  | nil => rfl
  | cons c t ih => simp [List.map_cons, ih, arabicToEnglish_idem c]

theorem map_arabicToEnglish_ascii (l : List Char) (h : ∀ c ∈ l, c.toNat < 128) :
    l.map arabicToEnglish = l := by
  induction l with
  | nil => rfl
  | cons c t ih =>
    simp only [List.map_cons]
    rw [arabicToEnglish_of_ascii c (h c (List.mem_cons_self c t)),
      ih (fun x hx => h x (List.mem_cons_of_mem c hx))]

/-- C7: `convert_arabic_numerals` is idempotent, is the identity on strings
of ASCII characters, maps each Arabic-Indic digit ٠–٩ to its ASCII
equivalent, and passes every other character through unchanged. -/
theorem convert_arabic_numerals_idempotent_ascii_id :
    (∀ s : String,
      convert_arabic_numerals (convert_arabic_numerals s) = convert_arabic_numerals s)
    ∧ (∀ s : String, (∀ c ∈ s.data, c.toNat < 128) → convert_arabic_numerals s = s)
    ∧ convert_arabic_numerals "١٢٣٤٥٦٧٨٩٠" = "1234567890"
    ∧ (∀ c : Char, isArabicDigit c = false → arabicToEnglish c = c) := by
  refine ⟨fun s => ?_, fun s h => ?_, by decide, arabicToEnglish_of_other⟩
  · exact congrArg String.mk (map_arabicToEnglish_idem s.data)
  · show String.mk (s.data.map arabicToEnglish) = s
    rw [map_arabicToEnglish_ascii s.data h]

theorem dropWhile_eq_self_of_not (p : Char → Bool) (l : List Char)
    (h : ∀ c ∈ l, p c = false) : l.dropWhile p = l := by
  cases l with
  | nil => rfl
  | cons c t => simp [List.dropWhile_cons, h c (List.mem_cons_self c t)]

theorem pyStrip_eq_self (l : List Char) (h : ∀ c ∈ l, isPySpace c = false) :
    pyStrip l = l := by
  unfold pyStrip
  rw [dropWhile_eq_self_of_not _ _ h,
    dropWhile_eq_self_of_not _ _ (fun c hc => h c (List.mem_reverse.mp hc)),
    List.reverse_reverse]

theorem digit_or_dot_not_space (c : Char) (h : (isPyDigit c || c == '.') = true) :
    isPySpace c = false := by
  by_contra hs
  have hs' : c.isWhitespace = true := by
    have : isPySpace c = true := by simpa using hs
    simpa [isPySpace] using this
  simp only [Char.isWhitespace, Bool.or_eq_true, decide_eq_true_eq] at hs'
  rcases hs' with ((h1 | h1) | h1) | h1 <;> subst h1 <;> exact absurd h (by decide)

theorem head_dropWhile_not (p : Char → Bool) :
    ∀ (l : List Char) (c : Char) (t : List Char), l.dropWhile p = c :: t → p c = false := by
  intro l
  induction l with
  | nil => intro c t h; simp at h
  | cons a l ih =>
    intro c t h
    by_cases hp : p a
    · rw [List.dropWhile_cons, if_pos hp] at h
      exact ih c t h
    · rw [List.dropWhile_cons, if_neg hp] at h
      injection h with h1 h2
      subst h1
      simpa using hp

theorem parseUnsigned_multidot (l : List Char)
    (hmem : ∀ c ∈ l, (isPyDigit c || c == '.') = true)
    (h : 2 ≤ l.count '.') :
    parseUnsigned l = none := by
  have hsplit : l.takeWhile isPyDigit ++ l.dropWhile isPyDigit = l :=
    List.takeWhile_append_dropWhile isPyDigit l
  have htake : (l.takeWhile isPyDigit).count '.' = 0 := by
    rw [List.count_eq_zero]
    intro hmemT
    exact absurd (List.mem_takeWhile_imp hmemT) (by decide)
  have hcount : l.count '.' = (l.takeWhile isPyDigit).count '.'
      + (l.dropWhile isPyDigit).count '.' := by
    conv_lhs => rw [← hsplit]
    exact List.count_append ..
  have hdrop : 2 ≤ (l.dropWhile isPyDigit).count '.' := by omega
  cases hr : l.dropWhile isPyDigit with
  | nil => rw [hr] at hdrop; simp at hdrop
  | cons c1 r2 =>
    have hc1false : isPyDigit c1 = false := head_dropWhile_not isPyDigit l c1 r2 hr
    have hc1mem : c1 ∈ l := by
      have hmm : c1 ∈ l.takeWhile isPyDigit ++ l.dropWhile isPyDigit := by
        rw [hr]
        exact List.mem_append_right _ (List.mem_cons_self _ _)
      rwa [hsplit] at hmm
    have hc1 : c1 = '.' := by
      have hh := hmem c1 hc1mem
      rw [hc1false] at hh
      simpa using hh
    subst hc1
    have hdot2 : '.' ∈ r2 := by
      rw [hr, List.count_cons_self] at hdrop
      have : 1 ≤ r2.count '.' := by omega
      exact List.count_pos_iff.mp (by omega)
    have hr3 : '.' ∈ r2.dropWhile isPyDigit := by
      have hsplit2 : r2.takeWhile isPyDigit ++ r2.dropWhile isPyDigit = r2 :=
        List.takeWhile_append_dropWhile isPyDigit r2
      have hmm : ('.' : Char) ∈ r2.takeWhile isPyDigit ++ r2.dropWhile isPyDigit := by
        rw [hsplit2]
        exact hdot2
      rcases List.mem_append.mp hmm with hmt | hmd
      · exact absurd (List.mem_takeWhile_imp hmt) (by decide)
      · exact hmd
    have hne : (r2.dropWhile isPyDigit).isEmpty = false := by
      cases hcc : r2.dropWhile isPyDigit with
      | nil => rw [hcc] at hr3; simp at hr3
      | cons _ _ => rfl
    simp only [parseUnsigned, hr]
    simp [hne]

theorem parseSigned_multidot (l : List Char)
    (hmem : ∀ c ∈ l, (isPyDigit c || c == '.') = true)
    (h : 2 ≤ l.count '.') :
    parseSigned l = none := by
  cases l with
  | nil => simp at h
  | cons c0 l0 =>
    have hc0 := hmem c0 (List.mem_cons_self _ _)
    have hm : c0 ≠ '-' := by
      intro he
      subst he
      exact absurd hc0 (by decide)
    have hp : c0 ≠ '+' := by
      intro he
      subst he
      exact absurd hc0 (by decide)
    unfold parseSigned
    dsimp only
    rw [if_neg hm, if_neg hp]
    exact parseUnsigned_multidot (c0 :: l0) hmem h

/-- C2 amended: `extract_numeric_value` raises on every input whose
digit-and-dot residue holds more than one `'.'` — nothing is collapsed. -/
theorem extract_numeric_value_multidot (s : String)
    (h : 2 ≤ (s.data.filter (fun c => isPyDigit c || c == '.')).count '.') :
    extract_numeric_value s = Except.error PExc.valueError := by
  have hmem : ∀ c ∈ s.data.filter (fun c => isPyDigit c || c == '.'),
      (isPyDigit c || c == '.') = true :=
    fun c hc => (List.mem_filter.mp hc).2
  have hspace : ∀ c ∈ s.data.filter (fun c => isPyDigit c || c == '.'),
      isPySpace c = false :=
    fun c hc => digit_or_dot_not_space c (hmem c hc)
  have hparse : parsePyFloat ⟨s.data.filter (fun c => isPyDigit c || c == '.')⟩ = none := by
    unfold parsePyFloat
    show parseSigned (pyStrip (s.data.filter (fun c => isPyDigit c || c == '.'))) = none
    rw [pyStrip_eq_self _ hspace]
    exact parseSigned_multidot _ hmem h
  unfold extract_numeric_value
  simp only [hparse]

/-- C2 counterexample: on `"1.234.56"` the function raises `ValueError`
instead of returning `1234.56` — no dot-collapsing happens. -/
theorem extract_numeric_value_no_dot_collapse :
    extract_numeric_value "1.234.56" = Except.error PExc.valueError
    ∧ (Except.error PExc.valueError : Except PExc ℚ) ≠ Except.ok (123456 / 100) := by
  exact ⟨rfl, fun hcon => Except.noConfusion hcon⟩

/-- C2 witness: the amended theorem applied at `"1.234.56"`. -/
theorem extract_numeric_value_multidot_witness :
    2 ≤ ("1.234.56".data.filter (fun c => isPyDigit c || c == '.')).count '.'
    ∧ extract_numeric_value "1.234.56" = Except.error PExc.valueError :=
  ⟨by decide, extract_numeric_value_multidot "1.234.56" (by decide)⟩

/-- C3: the dispatcher tests the Salla signals first: a document carrying
the `product:retailer_item_id` meta tag is dispatched to the Salla strategy
whatever else it contains, and the Zid strategy is selected only when no
Salla signal matched and a JSON-LD Product block is present. -/
theorem selectStrategy_salla_first (doc : Doc) :
    ((findMetaProp doc "product:retailer_item_id").isSome = true →
      selectStrategy doc = Strategy.salla ∧ extract_product_data doc "d"
        = (extract_salla doc).map (fun r => { r with website := some (lowerStr "d") }))
    ∧ (selectStrategy doc = Strategy.zid → is_salla doc = false ∧ is_zid doc = true) := by
  constructor
  · intro h
    have hs : is_salla doc = true := by
      unfold is_salla
      rw [h]
      rfl
    constructor
    · unfold selectStrategy
      rw [hs]
      rfl
    · unfold extract_product_data selectStrategy
      rw [hs]
      simp
  · intro h
    unfold selectStrategy at h
    by_cases hs : is_salla doc
    · rw [if_pos hs] at h
      exact absurd h (by simp)
    · rw [if_neg hs] at h
      by_cases hz : is_zid doc
      · exact ⟨by simpa using hs, hz⟩
      · rw [if_neg hz] at h
        exact absurd h (by simp)

/-- C3 witness: a page carrying both the retailer-item meta tag and a
JSON-LD Product block is dispatched to Salla, with both signals present. -/
theorem selectStrategy_salla_first_witness :
    selectStrategy c3doc = Strategy.salla ∧ is_zid c3doc = true :=
  ⟨((selectStrategy_salla_first c3doc).1 rfl).1, rfl⟩

theorem digitChar_isDigit : ∀ k : Nat, (digitChar k).isDigit = true
  | 0 => rfl
  | 1 => rfl
  | 2 => rfl
  | 3 => rfl
  | 4 => rfl
  | 5 => rfl
  | 6 => rfl
  | 7 => rfl
  | 8 => rfl
  | 9 => rfl
  | _ + 10 => rfl

theorem natDigitsAux_shape : ∀ (fuel n : Nat) (acc : List Char), n < fuel →
    ∃ c t, natDigitsAux fuel n acc = c :: t ∧ c.isDigit = true := by
  intro fuel
  induction fuel with
  | zero => intro n acc h; omega
  | succ f ih =>
    intro n acc h
    by_cases hn : n < 10
    · exact ⟨digitChar n, acc, by simp [natDigitsAux, hn], digitChar_isDigit n⟩
    · have h1 : n / 10 < f := by
        have h2 : n / 10 < n := Nat.div_lt_self (by omega) (by omega)
        omega
      obtain ⟨c, t, hct, hd⟩ := ih (n / 10) (digitChar (n % 10) :: acc) h1
      exact ⟨c, t, by simp [natDigitsAux, hn, hct], hd⟩

theorem natDigits_shape (n : Nat) :
    ∃ c t, natDigits n = c :: t ∧ c.isDigit = true :=
  natDigitsAux_shape (n + 1) n [] (Nat.lt_succ_self n)

theorem reFirstMatch_of_head_digit (c : Char) (t : List Char) (h : c.isDigit = true) :
    reFirstMatch (c :: t) = some (reMatchAt (c :: t)) := by
  unfold reFirstMatch
  simp [h]

/-- C4: the spec-modelled `plausibilityCorrect` returns every amount of at
most 10,000 unchanged, and re-derives every amount over 10,000 by parsing
the first `\d+\.?\d{0,2}` match of its string form. -/
theorem plausibilityCorrect_spec (d : Dec) :
    (decVal d ≤ 10000 → plausibilityCorrect d = decVal d)
    ∧ (10000 < decVal d →
        ∃ m, reFirstMatch (decRender d) = some m
          ∧ plausibilityCorrect d = (parsePyFloat ⟨m⟩).getD (decVal d)) := by
  constructor
  · intro h
    unfold plausibilityCorrect
    rw [if_neg (not_lt.mpr h)]
  · intro h
    obtain ⟨c, t, hct, hdig⟩ := natDigits_shape d.intPart
    have hrender : decRender d
        = c :: (t ++ '.' :: (if d.fracDigits.isEmpty then ['0'] else d.fracDigits)) := by
      unfold decRender
      rw [hct, List.cons_append]
    have hfm : reFirstMatch (decRender d) = some (reMatchAt (decRender d)) := by
      rw [hrender, reFirstMatch_of_head_digit c _ hdig, ← hrender]
    refine ⟨reMatchAt (decRender d), hfm, ?_⟩
    unfold plausibilityCorrect
    rw [if_pos h, hfm]

/-- C4 witness: `plausibilityCorrect` applied to the spec's test amount
15000.0 (string form `"15000.0"`, over the threshold) and to 42.5 (under
the threshold). -/
theorem plausibilityCorrect_spec_witness :
    10000 < decVal ⟨15000, []⟩
    ∧ (∃ m, reFirstMatch (decRender ⟨15000, []⟩) = some m
        ∧ plausibilityCorrect ⟨15000, []⟩ = (parsePyFloat ⟨m⟩).getD (decVal ⟨15000, []⟩))
    ∧ plausibilityCorrect ⟨15000, []⟩ = 15000
    ∧ decVal ⟨42, ['5']⟩ ≤ 10000
    ∧ plausibilityCorrect ⟨42, ['5']⟩ = decVal ⟨42, ['5']⟩ := by
  have h1 : decVal ⟨15000, []⟩ = 15000 := by norm_num [decVal, digitsNat]
  have hlt : 10000 < decVal ⟨15000, []⟩ := by rw [h1]; norm_num
  have h42 : decVal ⟨42, ['5']⟩ ≤ 10000 := by
    have h5 : digitsNat ['5'] = 5 := by decide
    norm_num [decVal, h5]
  refine ⟨hlt, (plausibilityCorrect_spec ⟨15000, []⟩).2 hlt, ?_,
    h42, (plausibilityCorrect_spec ⟨42, ['5']⟩).1 h42⟩
  obtain ⟨m, hm, hv⟩ := (plausibilityCorrect_spec ⟨15000, []⟩).2 hlt
  have hmval : m = ['1', '5', '0', '0', '0', '.', '0'] := by
    have hfm : reFirstMatch (decRender ⟨15000, []⟩)
        = some ['1', '5', '0', '0', '0', '.', '0'] := by decide
    rw [hfm] at hm
    exact (Option.some.injEq .. ▸ hm).symm
  rw [hv, hmval]
  have hp : parsePyFloat ⟨['1', '5', '0', '0', '0', '.', '0']⟩
      = some ((15000 : ℚ) + 0 / 10 ^ 1) := rfl
  rw [hp]
  norm_num

theorem genericNameFb_eq (d : ProductData) (doc : Doc) :
    genericNameFb d doc = { d with name := (genericNameFb d doc).name } := by
  unfold genericNameFb
  repeat' (first | split | dsimp only)

theorem genericPriceFb_eq (d : ProductData) (doc : Doc) :
    genericPriceFb d doc = { d with price := (genericPriceFb d doc).price } := by
  have hloop : ∀ (d' : ProductData) (ts : List String),
      priceElemLoop d' ts = { d' with price := (priceElemLoop d' ts).price } := by
    intro d' ts
    induction ts with
    | nil => rfl
    | cons t rest ih =>
      unfold priceElemLoop
      repeat' (first | split | dsimp only)
      all_goals first | rfl | exact ih
  unfold genericPriceFb
  repeat' (first | split | dsimp only)
  all_goals first | rfl | apply hloop

theorem genericDescFb_eq (d : ProductData) (doc : Doc) :
    genericDescFb d doc = { d with description := (genericDescFb d doc).description } := by
  unfold genericDescFb
  repeat' (first | split | dsimp only)

theorem genericImageFb_eq (d : ProductData) (doc : Doc) :
    genericImageFb d doc = { d with image_url := (genericImageFb d doc).image_url } := by
  unfold genericImageFb
  repeat' (first | split | dsimp only)

theorem genericBrandFb_eq (d : ProductData) (doc : Doc) :
    genericBrandFb d doc = { d with brand := (genericBrandFb d doc).brand } := by
  unfold genericBrandFb
  repeat' (first | split | dsimp only)

theorem qtruthy_shape {p : Option ℚ} (h : qtruthy p = true) :
    ∃ q, p = some q ∧ q ≠ 0 := by
  cases p with
  | none => simp [qtruthy] at h
  | some q => exact ⟨q, rfl, by simpa [qtruthy] using h⟩

theorem otruthyStr_map_str {o : Option String} (h : otruthyStr o = true) :
    otruthyJ (o.map Json.str) = true := by
  cases o with
  | none => simp [otruthyStr] at h
  | some s =>
    simp only [otruthyStr, decide_eq_true_eq] at h
    simp [otruthyJ, jtruthy, h]

theorem extract_salla_ok {doc : Doc} {r : ProductData} (h : extract_salla doc = .ok r) :
    otruthyStr (sallaName doc) = true
    ∧ r.name = (sallaName doc).map Json.str
    ∧ (∃ q, r.price = some q ∧ q ≠ 0) := by
  unfold extract_salla at h
  dsimp only at h
  by_cases hname : otruthyStr (sallaName doc) = true
  · rw [if_neg (not_not_intro hname)] at h
    cases hp : sallaPrice doc with
    | error e => rw [hp] at h; simp at h
    | ok price =>
      rw [hp] at h
      dsimp only at h
      by_cases hq : qtruthy price = true
      · rw [if_neg (not_not_intro hq)] at h
        cases hk : extract_keywords doc with
        | error e => rw [hk] at h; simp at h
        | ok kw =>
          rw [hk] at h
          dsimp only at h
          simp only [Except.ok.injEq] at h
          subst h
          exact ⟨hname, rfl, qtruthy_shape hq⟩
      · rw [if_pos hq] at h
        exact absurd h (by simp)
  · rw [if_pos hname] at h
    exact absurd h (by simp)

theorem extract_zid_ok {doc : Doc} {r : ProductData} (h : extract_zid doc = .ok r) :
    ∃ pd, zidFindProduct doc.scripts = some pd
      ∧ r.name = jget pd "name"
      ∧ otruthyJ r.name = true
      ∧ r.price.isSome = true := by
  unfold extract_zid at h
  cases hfind : zidFindProduct doc.scripts with
  | none => rw [hfind] at h; simp at h
  | some pd =>
    rw [hfind] at h
    dsimp only at h
    by_cases hname : otruthyJ (jget pd "name") = true
    · rw [if_neg (not_not_intro hname)] at h
      cases hoff : normOffers (jgetD pd "offers" (Json.obj [])) with
      | null => rw [hoff] at h; simp at h
      | bool b => rw [hoff] at h; simp at h
      | num q => rw [hoff] at h; simp at h
      | str s => rw [hoff] at h; simp at h
      | arr l => rw [hoff] at h; simp at h
      | obj ofs =>
        rw [hoff] at h
        dsimp only at h
        by_cases hpr : otruthyJ (jget (Json.obj ofs) "price") = true
        · rw [if_neg (not_not_intro hpr)] at h
          cases hst : zidStock (Json.obj ofs) with
          | error e => rw [hst] at h; simp at h
          | ok stock =>
            rw [hst] at h
            dsimp only at h
            cases hrr : zidRating pd with
            | error e => rw [hrr] at h; simp at h
            | ok rr =>
              rw [hrr] at h
              dsimp only at h
              cases hk : extract_keywords doc with
              | error e => rw [hk] at h; simp at h
              | ok kw =>
                rw [hk] at h
                dsimp only at h
                cases hfl : pyFloatE ((jget (Json.obj ofs) "price").getD Json.null) with
                | error e => rw [hfl] at h; simp at h
                | ok q =>
                  rw [hfl] at h
                  simp only [Except.ok.injEq] at h
                  subst h
                  exact ⟨pd, rfl, rfl, hname, rfl⟩
        · rw [if_pos hpr] at h
          exact absurd h (by simp)
    · rw [if_pos hname] at h
      exact absurd h (by simp)

@[simp]
theorem nameFb_keeps_price (d : ProductData) (doc : Doc) :
    (genericNameFb d doc).price = d.price := by
  rw [genericNameFb_eq]

@[simp]
theorem nameFb_keeps_rating (d : ProductData) (doc : Doc) :
    (genericNameFb d doc).rating = d.rating := by
  rw [genericNameFb_eq]

@[simp]
theorem nameFb_keeps_review_count (d : ProductData) (doc : Doc) :
    (genericNameFb d doc).review_count = d.review_count := by
  rw [genericNameFb_eq]

@[simp]
theorem nameFb_keeps_sku (d : ProductData) (doc : Doc) :
    (genericNameFb d doc).sku = d.sku := by
  rw [genericNameFb_eq]

@[simp]
theorem nameFb_keeps_stock_status (d : ProductData) (doc : Doc) :
    (genericNameFb d doc).stock_status = d.stock_status := by
  rw [genericNameFb_eq]

@[simp]
theorem nameFb_keeps_description (d : ProductData) (doc : Doc) :
    (genericNameFb d doc).description = d.description := by
  rw [genericNameFb_eq]

@[simp]
theorem nameFb_keeps_image_url (d : ProductData) (doc : Doc) :
    (genericNameFb d doc).image_url = d.image_url := by
  rw [genericNameFb_eq]

@[simp]
theorem nameFb_keeps_brand (d : ProductData) (doc : Doc) :
    (genericNameFb d doc).brand = d.brand := by
  rw [genericNameFb_eq]

@[simp]
theorem priceFb_keeps_name (d : ProductData) (doc : Doc) :
    (genericPriceFb d doc).name = d.name := by
  rw [genericPriceFb_eq]

@[simp]
theorem priceFb_keeps_rating (d : ProductData) (doc : Doc) :
    (genericPriceFb d doc).rating = d.rating := by
  rw [genericPriceFb_eq]

@[simp]
theorem priceFb_keeps_review_count (d : ProductData) (doc : Doc) :
    (genericPriceFb d doc).review_count = d.review_count := by
  rw [genericPriceFb_eq]

@[simp]
theorem priceFb_keeps_sku (d : ProductData) (doc : Doc) :
    (genericPriceFb d doc).sku = d.sku := by
  rw [genericPriceFb_eq]

@[simp]
theorem priceFb_keeps_stock_status (d : ProductData) (doc : Doc) :
    (genericPriceFb d doc).stock_status = d.stock_status := by
  rw [genericPriceFb_eq]

@[simp]
theorem priceFb_keeps_description (d : ProductData) (doc : Doc) :
    (genericPriceFb d doc).description = d.description := by
  rw [genericPriceFb_eq]

@[simp]
theorem priceFb_keeps_image_url (d : ProductData) (doc : Doc) :
    (genericPriceFb d doc).image_url = d.image_url := by
  rw [genericPriceFb_eq]

@[simp]
theorem priceFb_keeps_brand (d : ProductData) (doc : Doc) :
    (genericPriceFb d doc).brand = d.brand := by
  rw [genericPriceFb_eq]

@[simp]
theorem descFb_keeps_name (d : ProductData) (doc : Doc) :
    (genericDescFb d doc).name = d.name := by
  rw [genericDescFb_eq]

@[simp]
theorem descFb_keeps_price (d : ProductData) (doc : Doc) :
    (genericDescFb d doc).price = d.price := by
  rw [genericDescFb_eq]

@[simp]
theorem descFb_keeps_rating (d : ProductData) (doc : Doc) :
    (genericDescFb d doc).rating = d.rating := by
  rw [genericDescFb_eq]

@[simp]
theorem descFb_keeps_review_count (d : ProductData) (doc : Doc) :
    (genericDescFb d doc).review_count = d.review_count := by
  rw [genericDescFb_eq]

@[simp]
theorem descFb_keeps_sku (d : ProductData) (doc : Doc) :
    (genericDescFb d doc).sku = d.sku := by
  rw [genericDescFb_eq]

@[simp]
theorem descFb_keeps_stock_status (d : ProductData) (doc : Doc) :
    (genericDescFb d doc).stock_status = d.stock_status := by
  rw [genericDescFb_eq]

@[simp]
theorem descFb_keeps_image_url (d : ProductData) (doc : Doc) :
    (genericDescFb d doc).image_url = d.image_url := by
  rw [genericDescFb_eq]

@[simp]
theorem descFb_keeps_brand (d : ProductData) (doc : Doc) :
    (genericDescFb d doc).brand = d.brand := by
  rw [genericDescFb_eq]

@[simp]
theorem imageFb_keeps_name (d : ProductData) (doc : Doc) :
    (genericImageFb d doc).name = d.name := by
  rw [genericImageFb_eq]

@[simp]
theorem imageFb_keeps_price (d : ProductData) (doc : Doc) :
    (genericImageFb d doc).price = d.price := by
  rw [genericImageFb_eq]

@[simp]
theorem imageFb_keeps_rating (d : ProductData) (doc : Doc) :
    (genericImageFb d doc).rating = d.rating := by
  rw [genericImageFb_eq]

@[simp]
theorem imageFb_keeps_review_count (d : ProductData) (doc : Doc) :
    (genericImageFb d doc).review_count = d.review_count := by
  rw [genericImageFb_eq]

@[simp]
theorem imageFb_keeps_sku (d : ProductData) (doc : Doc) :
    (genericImageFb d doc).sku = d.sku := by
  rw [genericImageFb_eq]

@[simp]
theorem imageFb_keeps_stock_status (d : ProductData) (doc : Doc) :
    (genericImageFb d doc).stock_status = d.stock_status := by
  rw [genericImageFb_eq]

@[simp]
theorem imageFb_keeps_brand (d : ProductData) (doc : Doc) :
    (genericImageFb d doc).brand = d.brand := by
  rw [genericImageFb_eq]

@[simp]
theorem brandFb_keeps_name (d : ProductData) (doc : Doc) :
    (genericBrandFb d doc).name = d.name := by
  rw [genericBrandFb_eq]

@[simp]
theorem brandFb_keeps_price (d : ProductData) (doc : Doc) :
    (genericBrandFb d doc).price = d.price := by
  rw [genericBrandFb_eq]

@[simp]
theorem brandFb_keeps_rating (d : ProductData) (doc : Doc) :
    (genericBrandFb d doc).rating = d.rating := by
  rw [genericBrandFb_eq]

@[simp]
theorem brandFb_keeps_review_count (d : ProductData) (doc : Doc) :
    (genericBrandFb d doc).review_count = d.review_count := by
  rw [genericBrandFb_eq]

@[simp]
theorem brandFb_keeps_sku (d : ProductData) (doc : Doc) :
    (genericBrandFb d doc).sku = d.sku := by
  rw [genericBrandFb_eq]

@[simp]
theorem brandFb_keeps_stock_status (d : ProductData) (doc : Doc) :
    (genericBrandFb d doc).stock_status = d.stock_status := by
  rw [genericBrandFb_eq]

@[simp]
theorem brandFb_keeps_image_url (d : ProductData) (doc : Doc) :
    (genericBrandFb d doc).image_url = d.image_url := by
  rw [genericBrandFb_eq]

theorem extract_generic_ok {doc : Doc} {r : ProductData}
    (h : extract_generic doc = .ok r) :
    ∃ d0, genericLdPass initData doc.scripts = .ok d0
      ∧ r.name = (genericNameFb d0 doc).name
      ∧ otruthyJ r.name = true
      ∧ (∃ q, r.price = some q ∧ q ≠ 0)
      ∧ r.rating = d0.rating
      ∧ r.review_count = d0.review_count
      ∧ r.sku = d0.sku
      ∧ r.stock_status = d0.stock_status := by
  unfold extract_generic at h
  cases hld : genericLdPass initData doc.scripts with
  | error e => rw [hld] at h; simp at h
  | ok d0 =>
    rw [hld] at h
    dsimp only at h
    cases hk : extract_keywords doc with
    | error e => rw [hk] at h; simp at h
    | ok kw =>
      rw [hk] at h
      dsimp only at h
      split at h
      · exact absurd h (by simp)
      · split at h
        · exact absurd h (by simp)
        · rename_i hname hq
          rw [not_not] at hname hq
          simp only [Except.ok.injEq] at h
          subst h
          refine ⟨d0, rfl, by simp, hname, qtruthy_shape hq, by simp, by simp, by simp, by simp⟩

/-- C1: each strategy either raises or returns a record whose `name` is
present and truthy (non-empty) and whose `price` is present — never a
record with `name` or `price` absent. -/
theorem strategies_require_name_and_price (doc : Doc) (r : ProductData) :
    (extract_salla doc = .ok r → otruthyJ r.name = true ∧ r.price.isSome = true)
    ∧ (extract_zid doc = .ok r → otruthyJ r.name = true ∧ r.price.isSome = true)
    ∧ (extract_generic doc = .ok r → otruthyJ r.name = true ∧ r.price.isSome = true) := by
  refine ⟨fun h => ?_, fun h => ?_, fun h => ?_⟩
  · obtain ⟨hname, hrn, q, hp, hq⟩ := extract_salla_ok h
    exact ⟨hrn ▸ otruthyStr_map_str hname, by rw [hp]; rfl⟩
  · obtain ⟨pd, _, _, hname, hp⟩ := extract_zid_ok h
    exact ⟨hname, hp⟩
  · obtain ⟨d0, _, _, hname, ⟨q, hp, _⟩, _⟩ := extract_generic_ok h
    exact ⟨hname, by rw [hp]; rfl⟩

/-- C1 witness: the three strategies applied to concrete succeeding pages. -/
theorem strategies_require_name_and_price_witness :
    (otruthyJ w1rec.name = true ∧ w1rec.price.isSome = true)
    ∧ (otruthyJ w2rec.name = true ∧ w2rec.price.isSome = true)
    ∧ (otruthyJ w3rec.name = true ∧ w3rec.price.isSome = true) :=
  ⟨(strategies_require_name_and_price w1doc w1rec).1 rfl,
   (strategies_require_name_and_price w2doc w2rec).2.1 rfl,
   (strategies_require_name_and_price w3doc w3rec).2.2 rfl⟩

/-- C6 counterexample: `extract_zid` succeeds on a page whose JSON-LD price
is the truthy string `"0"` and returns price 0, which is not strictly
positive. -/
theorem zid_returns_zero_price :
    (extract_zid zidZeroDoc).map (fun r => r.price) = Except.ok (some (0 : ℚ))
    ∧ ¬ (0 : ℚ) < 0 :=
  ⟨rfl, lt_irrefl 0⟩

/-- C6 amended: every successfully returned record carries a present price;
Salla and generic further guarantee it is non-zero (a falsy price raises),
but no strategy checks sign or finiteness, and Zid only checks truthiness
of the raw JSON value before `float`, so a string `"0"` yields price 0. -/
theorem strategies_price_nonzero (doc : Doc) (r : ProductData) :
    (extract_salla doc = .ok r → ∃ q, r.price = some q ∧ q ≠ 0)
    ∧ (extract_generic doc = .ok r → ∃ q, r.price = some q ∧ q ≠ 0)
    ∧ (extract_zid doc = .ok r → r.price.isSome = true) := by
  refine ⟨fun h => ?_, fun h => ?_, fun h => ?_⟩
  · exact (extract_salla_ok h).2.2
  · obtain ⟨d0, _, _, _, hp, _⟩ := extract_generic_ok h
    exact hp
  · obtain ⟨pd, _, _, _, hp⟩ := extract_zid_ok h
    exact hp

/-- C6 witness: the amended statement applied to concrete succeeding
pages. -/
theorem strategies_price_nonzero_witness :
    (∃ q, w1rec.price = some q ∧ q ≠ 0)
    ∧ (∃ q, w3rec.price = some q ∧ q ≠ 0)
    ∧ w2rec.price.isSome = true :=
  ⟨(strategies_price_nonzero w1doc w1rec).1 rfl,
   (strategies_price_nonzero w3doc w3rec).2.1 rfl,
   (strategies_price_nonzero w2doc w2rec).2.2 rfl⟩

theorem sallaName_chain (doc : Doc) (h : otruthyStr (sallaName doc) = true) :
    sallaName doc = firstTruthyStr [sallaOgEntry doc, sallaTitleEntry doc] := by
  have heq : sallaName doc = (if otruthyStr (sallaOgEntry doc) = true then sallaOgEntry doc
      else match doc.title with
        | some t => some ⟨pyStrip (pyHeadSplit '-' t.data)⟩
        | none => sallaOgEntry doc) := rfl
  by_cases hog : otruthyStr (sallaOgEntry doc) = true
  · rw [heq, if_pos hog]
    simp [firstTruthyStr, hog]
  · rw [heq, if_neg hog] at h ⊢
    cases ht : doc.title with
    | none =>
      rw [ht] at h
      dsimp only at h
      exact absurd h hog
    | some t =>
      rw [ht] at h
      dsimp only at h ⊢
      have hentry : sallaTitleEntry doc = some ⟨pyStrip (pyHeadSplit '-' t.data)⟩ := by
        unfold sallaTitleEntry
        rw [ht]
        rfl
      simp only [firstTruthyStr]
      rw [if_neg hog, hentry, if_pos (by exact h)]

theorem genericNameFb_chain (d : ProductData) (doc : Doc)
    (h : otruthyJ (genericNameFb d doc).name = true) :
    (genericNameFb d doc).name
      = firstTruthyJ [d.name, genericOgEntry doc, genericTitleEntry doc] := by
  by_cases h0 : otruthyJ d.name = true
  · have he : genericNameFb d doc = d := by
      unfold genericNameFb
      rw [if_pos h0]
    rw [he]
    simp [firstTruthyJ, h0]
  · unfold genericNameFb at h ⊢
    rw [if_neg h0] at h ⊢
    cases hog : findMetaProp doc "og:title" with
    | some m =>
      rw [hog] at h
      dsimp only at h ⊢
      have hogE : genericOgEntry doc = m.content.map Json.str := by
        unfold genericOgEntry
        rw [hog]
      by_cases h1 : otruthyJ (m.content.map Json.str) = true
      · rw [if_pos h1] at h ⊢
        simp [firstTruthyJ, h0, hogE, h1]
      · rw [if_neg h1] at h ⊢
        cases ht : doc.title with
        | some t =>
          rw [ht] at h
          dsimp only at h ⊢
          have htE : genericTitleEntry doc
              = some (Json.str ⟨pyStrip (pyHeadSplit '|' (pyHeadSplit '-' t.data))⟩) := by
            unfold genericTitleEntry
            rw [ht]
            rfl
          simp [firstTruthyJ, h0, hogE, h1, htE, h]
        | none =>
          rw [ht] at h
          dsimp only at h
          exact absurd h h1
    | none =>
      rw [hog] at h
      dsimp only at h ⊢
      have hogE : genericOgEntry doc = none := by
        unfold genericOgEntry
        rw [hog]
      rw [if_neg h0] at h ⊢
      cases ht : doc.title with
      | some t =>
        rw [ht] at h
        dsimp only at h ⊢
        have htE : genericTitleEntry doc
            = some (Json.str ⟨pyStrip (pyHeadSplit '|' (pyHeadSplit '-' t.data))⟩) := by
          unfold genericTitleEntry
          rw [ht]
          rfl
        simp [firstTruthyJ, h0, hogE, htE, h,
          show otruthyJ (none : Option Json) = false from rfl]
      | none =>
        rw [ht] at h
        dsimp only at h
        exact absurd h h0

/-- C5 counterexample: on a Salla page whose JSON-LD Product block is named
`A` and whose `og:title` is `B`, `extract_salla` returns name `B` — the
structured-data name source the claim puts first is never consulted. -/
theorem salla_name_ignores_structured_data :
    (extract_salla c5doc).map (fun r => r.name) = Except.ok (some (Json.str "B"))
    ∧ claimNameChain c5doc = some "A"
    ∧ Json.str "B" ≠ Json.str "A" := by
  refine ⟨rfl, rfl, fun hcon => ?_⟩
  injection hcon with hs
  exact absurd hs (by decide)

/-- C5 amended: name recovery order is strategy-specific.  Salla tries
`og:title` (trimmed) then the `<title>` first `'-'`-segment (trimmed) and
never consults structured data; Zid takes the name only from the first
JSON-LD Product block, with no fallback; generic tries the JSON-LD pass's
name, then `og:title`, then the `<title>` first segment (split on `'-'`
and `'|'`, trimmed) — in each chain the first truthy result wins. -/
theorem name_recovery_order_per_strategy (doc : Doc) (r : ProductData) :
    (extract_salla doc = .ok r →
      r.name = (firstTruthyStr [sallaOgEntry doc, sallaTitleEntry doc]).map Json.str)
    ∧ (extract_zid doc = .ok r →
      ∃ pd, zidFindProduct doc.scripts = some pd ∧ r.name = jget pd "name")
    ∧ (∀ d0, extract_generic doc = .ok r → genericLdPass initData doc.scripts = .ok d0 →
      r.name = firstTruthyJ [d0.name, genericOgEntry doc, genericTitleEntry doc]) := by
  refine ⟨fun h => ?_, fun h => ?_, fun d0 h hld => ?_⟩
  · obtain ⟨hname, hrn, _⟩ := extract_salla_ok h
    rw [hrn, sallaName_chain doc hname]
  · obtain ⟨pd, hfind, hrn, _, _⟩ := extract_zid_ok h
    exact ⟨pd, hfind, hrn⟩
  · obtain ⟨d0', hld', hrn, hname, _⟩ := extract_generic_ok h
    rw [hld'] at hld
    injection hld with hld
    subst hld
    rw [hrn] at hname ⊢
    exact genericNameFb_chain d0' doc hname

/-- C5 witness: the amended order statement applied to concrete succeeding
pages of each strategy. -/
theorem name_recovery_order_witness :
    w1rec.name = (firstTruthyStr [sallaOgEntry w1doc, sallaTitleEntry w1doc]).map Json.str
    ∧ (∃ pd, zidFindProduct w2doc.scripts = some pd ∧ w2rec.name = jget pd "name")
    ∧ w3rec.name = firstTruthyJ [initData.name, genericOgEntry w3doc, genericTitleEntry w3doc] :=
  ⟨(name_recovery_order_per_strategy w1doc w1rec).1 rfl,
   (name_recovery_order_per_strategy w2doc w2rec).2.1 rfl,
   (name_recovery_order_per_strategy w3doc w3rec).2.2 initData rfl rfl⟩

theorem tagStep_nz (d : ProductData) (sc : ScriptContent)
    (hr : nzOptQ d.rating) (hv : nzOptZ d.review_count) :
    nzOptQ (tagStep d sc).1.rating ∧ nzOptZ (tagStep d sc).1.review_count := by
  unfold tagStep
  repeat' (first | split | dsimp only)
  all_goals
    constructor <;>
      first
        | exact hr
        | exact hv
        | exact Or.inl rfl
        | exact Or.inr ⟨_, rfl, by assumption⟩

theorem genericLdPass_nz (scripts : List ScriptContent) :
    ∀ (d : ProductData), nzOptQ d.rating → nzOptZ d.review_count →
      ∀ d', genericLdPass d scripts = .ok d' →
        nzOptQ d'.rating ∧ nzOptZ d'.review_count := by
  induction scripts with
  | nil =>
    intro d hr hv d' h
    simp only [genericLdPass, Except.ok.injEq] at h
    subst h
    exact ⟨hr, hv⟩
  | cons sc rest ih =>
    intro d hr hv d' h
    obtain ⟨hr', hv'⟩ := tagStep_nz d sc hr hv
    unfold genericLdPass at h
    split at h
    · rename_i heq
      rw [heq] at hr' hv'
      simp only [Except.ok.injEq] at h
      subst h
      exact ⟨hr', hv'⟩
    · rename_i heq
      rw [heq] at hr' hv'
      exact ih _ hr' hv' d' h
    · rename_i heq
      split at h
      · rw [heq] at hr' hv'
        exact ih _ hr' hv' d' h
      · exact absurd h (by simp)

/-- C9: in the generic strategy a JSON-LD zero is coerced to absent: a
successfully returned record never carries `rating = 0` or
`review_count = 0` (the `... or None` coercion stores `None` instead), and
a zero `offers.price` leaves the price to the later fallbacks. -/
theorem generic_zero_coerced_to_none (doc : Doc) (r : ProductData)
    (h : extract_generic doc = .ok r) :
    nzOptQ r.rating ∧ nzOptZ r.review_count ∧ (∃ q, r.price = some q ∧ q ≠ 0) := by
  obtain ⟨d0, hld, _, _, hp, hrat, hrev, _⟩ := extract_generic_ok h
  have hnz := genericLdPass_nz doc.scripts initData (Or.inl rfl) (Or.inl rfl) d0 hld
  rw [hrat, hrev]
  exact ⟨hnz.1, hnz.2, hp⟩

/-- C9 witness: on a page whose Product block has `offers.price = 0`,
`ratingValue = 0` and `reviewCount = 0`, the generic strategy returns the
meta-tag price 5 and leaves rating and review count absent. -/
theorem generic_zero_coerced_witness :
    extract_generic c9doc = Except.ok c9rec
    ∧ c9rec.price = some 5 ∧ c9rec.rating = none ∧ c9rec.review_count = none
    ∧ nzOptQ c9rec.rating ∧ nzOptZ c9rec.review_count
    ∧ (∃ q, c9rec.price = some q ∧ q ≠ 0) := by
  have h := generic_zero_coerced_to_none c9doc c9rec rfl
  exact ⟨rfl, rfl, rfl, rfl, h.1, h.2.1, h.2.2⟩

theorem tagStep_nonproduct (d : ProductData) (sc : ScriptContent)
    (h : isZidProductTag sc = false) :
    (tagStep d sc).1 = d
    ∧ ((tagStep d sc).2 = .cont
      ∨ (tagStep d sc).2 = .exc .jsonDecodeError
      ∨ (tagStep d sc).2 = .exc .attrError
      ∨ (tagStep d sc).2 = .exc .typeError) := by
  cases sc with
  | absent => exact ⟨rfl, by simp [tagStep]⟩
  | malformed => exact ⟨rfl, by simp [tagStep]⟩
  | parsed j =>
    cases j with
    | obj fs =>
      unfold tagStep
      unfold isZidProductTag at h
      dsimp only at h ⊢
      cases hty : jgetD (Json.obj fs) "@type" (Json.str "") with
      | str ty =>
        rw [hty] at h
        dsimp only at h ⊢
        rw [if_neg (by simp [h])]
        exact ⟨rfl, Or.inl rfl⟩
      | null => exact ⟨rfl, Or.inr (Or.inr (Or.inl rfl))⟩
      | bool b => exact ⟨rfl, Or.inr (Or.inr (Or.inl rfl))⟩
      | num q => exact ⟨rfl, Or.inr (Or.inr (Or.inl rfl))⟩
      | arr l => exact ⟨rfl, Or.inr (Or.inr (Or.inl rfl))⟩
      | obj o => exact ⟨rfl, Or.inr (Or.inr (Or.inl rfl))⟩
    | null => exact ⟨rfl, Or.inl rfl⟩
    | bool b => exact ⟨rfl, Or.inl rfl⟩
    | num q => exact ⟨rfl, Or.inl rfl⟩
    | str s => exact ⟨rfl, Or.inl rfl⟩
    | arr l => exact ⟨rfl, Or.inl rfl⟩

theorem genericLdPass_nonproduct (scripts : List ScriptContent)
    (h : ∀ sc ∈ scripts, isZidProductTag sc = false) (d : ProductData) :
    genericLdPass d scripts = .ok d ∨ genericLdPass d scripts = .error .typeError := by
  induction scripts generalizing d with
  | nil => exact Or.inl rfl
  | cons sc rest ih =>
    obtain ⟨hst, hout⟩ := tagStep_nonproduct d sc (h sc (List.mem_cons_self sc rest))
    have hrest : ∀ x ∈ rest, isZidProductTag x = false :=
      fun x hx => h x (List.mem_cons_of_mem sc hx)
    unfold genericLdPass
    rcases hout with ho | ho | ho | ho <;>
      rcases hpair : tagStep d sc with ⟨d', out⟩ <;>
      rw [hpair] at ho hst <;>
      dsimp only at ho hst <;>
      subst ho <;> subst hst
    · exact ih hrest d'
    · simpa using ih hrest d'
    · simpa using ih hrest d'
    · simp

/-- C10: when the dispatcher selects the generic strategy, no JSON-LD tag
parses to a Product-typed dict, the JSON-LD pass leaves the blank record
untouched (or error out), and consequently a returned record's
`rating`, `review_count`, `sku` and `stock_status` — fields only the
structured-data branch could populate — are all absent. -/
theorem generic_dispatch_no_product_block (doc : Doc) (r : ProductData)
    (h1 : selectStrategy doc = .generic) (h2 : extract_generic doc = .ok r) :
    (∀ sc ∈ doc.scripts, isZidProductTag sc = false)
    ∧ genericLdPass initData doc.scripts = .ok initData
    ∧ r.rating = none ∧ r.review_count = none ∧ r.sku = none ∧ r.stock_status = none := by
  have hz : is_zid doc = false := by
    unfold selectStrategy at h1
    by_cases hs : is_salla doc
    · rw [if_pos hs] at h1
      exact absurd h1 (by simp)
    · rw [if_neg hs] at h1
      by_cases hzz : is_zid doc
      · rw [if_pos hzz] at h1
        exact absurd h1 (by simp)
      · simpa using hzz
  have hall : ∀ sc ∈ doc.scripts, isZidProductTag sc = false := by
    intro sc hsc
    by_contra hcon
    have htrue : isZidProductTag sc = true := by simpa using hcon
    have hzt : is_zid doc = true := by
      unfold is_zid
      exact List.any_eq_true.mpr ⟨sc, hsc, htrue⟩
    rw [hzt] at hz
    exact absurd hz (by simp)
  obtain ⟨d0, hld, hrn, _, _, hrat, hrev, hsku, hstock⟩ := extract_generic_ok h2
  rcases genericLdPass_nonproduct doc.scripts hall initData with hok | herr
  · rw [hok] at hld
    injection hld with hld
    subst hld
    exact ⟨hall, hok, hrat, hrev, hsku, hstock⟩
  · rw [herr] at hld
    exact absurd hld (by simp)

/-- C10 witness: a generic-dispatched page whose only JSON-LD block is an
`Article`. -/
theorem generic_dispatch_no_product_block_witness :
    (∀ sc ∈ c10doc.scripts, isZidProductTag sc = false)
    ∧ genericLdPass initData c10doc.scripts = .ok initData
    ∧ c10rec.rating = none ∧ c10rec.review_count = none
    ∧ c10rec.sku = none ∧ c10rec.stock_status = none :=
  generic_dispatch_no_product_block c10doc c10rec rfl rfl

theorem mem_kwAdd {s : List String} {x y : String} :
    y ∈ kwAdd s x ↔ y ∈ s ∨ y = x := by
  unfold kwAdd
  split
  · rename_i hc
    constructor
    · exact Or.inl
    · rintro (hy | rfl)
      · exact hy
      · exact List.mem_of_elem_eq_true hc
  · simp [List.mem_append]

theorem nodup_kwAdd {s : List String} {x : String} (h : s.Nodup) :
    (kwAdd s x).Nodup := by
  unfold kwAdd
  split
  · exact h
  · rename_i hc
    have hx : x ∉ s := fun hmem => hc (List.elem_eq_true_of_mem hmem)
    simp [List.nodup_append, h, hx]

theorem mem_kwAddMany {s : List String} {xs : List String} {y : String} :
    y ∈ kwAddMany s xs ↔ y ∈ s ∨ y ∈ xs := by
  induction xs generalizing s with
  | nil => simp [kwAddMany]
  | cons x rest ih =>
    unfold kwAddMany at ih ⊢
    rw [List.foldl_cons, ih, mem_kwAdd]
    simp [or_assoc]

theorem nodup_kwAddMany {s : List String} {xs : List String} (h : s.Nodup) :
    (kwAddMany s xs).Nodup := by
  induction xs generalizing s with
  | nil => exact h
  | cons x rest ih =>
    unfold kwAddMany at ih ⊢
    rw [List.foldl_cons]
    exact ih (nodup_kwAdd h)

theorem mem_kwFromMeta {doc : Doc} {s : List String} {y : String} :
    y ∈ kwFromMeta doc s ↔ y ∈ s ∨ y ∈ specMetaVals (findMetaName doc "keywords") := by
  unfold kwFromMeta specMetaVals
  cases findMetaName doc "keywords" with
  | none => simp
  | some m =>
    cases htc : truthyContent m.content with
    | none => simp [htc]
    | some c => simp [htc, mem_kwAddMany]

theorem nodup_kwFromMeta {doc : Doc} {s : List String} (h : s.Nodup) :
    (kwFromMeta doc s).Nodup := by
  unfold kwFromMeta
  cases findMetaName doc "keywords" with
  | none => exact h
  | some m =>
    cases htc : truthyContent m.content with
    | none => simp only [htc]; exact h
    | some c => simp only [htc]; exact nodup_kwAddMany h

theorem mem_kwFromArticle {doc : Doc} {s : List String} {y : String} :
    y ∈ kwFromArticle doc s ↔ y ∈ s ∨ y ∈ specMetaVals (findMetaProp doc "article:tag") := by
  unfold kwFromArticle specMetaVals
  cases findMetaProp doc "article:tag" with
  | none => simp
  | some m =>
    cases htc : truthyContent m.content with
    | none => simp [htc]
    | some c => simp [htc, mem_kwAddMany]

theorem nodup_kwFromArticle {doc : Doc} {s : List String} (h : s.Nodup) :
    (kwFromArticle doc s).Nodup := by
  unfold kwFromArticle
  cases findMetaProp doc "article:tag" with
  | none => exact h
  | some m =>
    cases htc : truthyContent m.content with
    | none => simp only [htc]; exact h
    | some c => simp only [htc]; exact nodup_kwAddMany h

theorem mem_kwTagUpdate {s : List String} {j : Json} {y : String} :
    y ∈ kwTagUpdate s j ↔ y ∈ s ∨ y ∈ specTagVals j := by
  unfold kwTagUpdate specTagVals
  cases j with
  | obj fs =>
    cases hk : jget (Json.obj fs) "keywords" with
    | none => simp [hk]
    | some v =>
      cases v with
      | arr l =>
        by_cases hall : l.all isJStr = true
        · simp [hk, hall, mem_kwAddMany]
        · simp [hk, hall]
      | str t => simp [hk, mem_kwAddMany]
      | null => simp [hk]
      | bool b => simp [hk]
      | num q => simp [hk]
      | obj o => simp [hk]
  | null => simp
  | bool b => simp
  | num q => simp
  | str t => simp
  | arr l => simp

theorem nodup_kwTagUpdate {s : List String} {j : Json} (h : s.Nodup) :
    (kwTagUpdate s j).Nodup := by
  unfold kwTagUpdate
  cases j with
  | obj fs =>
    cases hk : jget (Json.obj fs) "keywords" with
    | none => simp only [hk]; exact h
    | some v =>
      cases v with
      | arr l =>
        by_cases hall : l.all isJStr = true
        · simp only [hk, hall, if_true]
          exact nodup_kwAddMany h
        · simp only [hk]
          rw [if_neg (by simpa using hall)]
          exact h
      | str t => simp only [hk]; exact nodup_kwAddMany h
      | null => simp only [hk]; exact h
      | bool b => simp only [hk]; exact h
      | num q => simp only [hk]; exact h
      | obj o => simp only [hk]; exact h
  | null => exact h
  | bool b => exact h
  | num q => exact h
  | str t => exact h
  | arr l => exact h

theorem mem_kwFromCategory {doc : Doc} {s : List String} {y : String} :
    y ∈ kwFromCategory doc s ↔ y ∈ s ∨ y ∈ specCategoryVals doc := by
  unfold kwFromCategory specCategoryVals
  cases findMetaProp doc "product:category" with
  | none => simp
  | some m =>
    cases htc : truthyContent m.content with
    | none => simp [htc]
    | some c => simp [htc, mem_kwAdd]

theorem nodup_kwFromCategory {doc : Doc} {s : List String} (h : s.Nodup) :
    (kwFromCategory doc s).Nodup := by
  unfold kwFromCategory
  cases findMetaProp doc "product:category" with
  | none => exact h
  | some m =>
    cases htc : truthyContent m.content with
    | none => simp only [htc]; exact h
    | some c => simp only [htc]; exact nodup_kwAdd h

/-- Under string-carrying script tags, the JSON-LD loop of
`extract_keywords` succeeds, collects exactly the per-tag values, and
keeps the set duplicate-free. -/
theorem kwScripts_ok (scripts : List ScriptContent)
    (h : ∀ sc ∈ scripts, sc ≠ ScriptContent.absent) (s : List String) :
    ∃ s', kwScripts s scripts = .ok s'
      ∧ (∀ y, y ∈ s' ↔ y ∈ s ∨ y ∈ scripts.foldr (fun sc acc =>
          match sc with
          | .parsed j => specTagVals j ++ acc
          | _ => acc) [])
      ∧ (s.Nodup → s'.Nodup) := by
  induction scripts generalizing s with
  | nil => exact ⟨s, rfl, by simp, id⟩
  | cons sc rest ih =>
    have hrest : ∀ x ∈ rest, x ≠ ScriptContent.absent :=
      fun x hx => h x (List.mem_cons_of_mem sc hx)
    cases sc with
    | absent => exact absurd rfl (h _ (List.mem_cons_self _ _))
    | malformed =>
      obtain ⟨s', hok, hmem, hnd⟩ := ih hrest s
      exact ⟨s', hok, by simpa using hmem, hnd⟩
    | parsed j =>
      obtain ⟨s', hok, hmem, hnd⟩ := ih hrest (kwTagUpdate s j)
      refine ⟨s', hok, fun y => ?_, fun hs => hnd (nodup_kwTagUpdate hs)⟩
      rw [hmem y, mem_kwTagUpdate]
      simp [List.mem_append, or_assoc]

theorem sortStrings_eq_of_same_mem (a b : List String) (ha : a.Nodup) (hb : b.Nodup)
    (h : ∀ y, y ∈ a ↔ y ∈ b) : sortStrings a = sortStrings b := by
  have hperm : List.Perm a b := by
    refine List.perm_of_nodup_nodup_toFinset_eq ha hb ?_
    ext y
    simpa [List.mem_toFinset] using h y
  unfold sortStrings
  refine List.eq_of_perm_of_sorted ?_ (List.sorted_insertionSort strLeProp a)
    (List.sorted_insertionSort strLeProp b)
  exact ((List.perm_insertionSort strLeProp a).trans hperm).trans
    (List.perm_insertionSort strLeProp b).symm

/-- C8 amended: on every document whose JSON-LD script tags all carry a
string, `extract_keywords` returns exactly the spec's description —
the union of the four keyword sources, lowercased and trimmed, empties
discarded, deduplicated, sorted alphabetically and comma-joined. -/
theorem extract_keywords_matches_spec (doc : Doc)
    (habs : ∀ sc ∈ doc.scripts, sc ≠ ScriptContent.absent) :
    extract_keywords doc = Except.ok (keywordsSpec doc) := by
  obtain ⟨s', hok, hmem, hnd⟩ :=
    kwScripts_ok doc.scripts habs (kwFromArticle doc (kwFromMeta doc []))
  have hndcode : ((kwFromCategory doc s').filter (fun k => k ≠ "")).Nodup :=
    List.Nodup.filter _
      (nodup_kwFromCategory (hnd (nodup_kwFromArticle (nodup_kwFromMeta List.nodup_nil))))
  have hmemcode : ∀ y, y ∈ (kwFromCategory doc s').filter (fun k => k ≠ "") ↔
      ((y ∈ specMetaVals (findMetaName doc "keywords")
        ∨ y ∈ specMetaVals (findMetaProp doc "article:tag")
        ∨ y ∈ doc.scripts.foldr (fun sc acc =>
            match sc with
            | ScriptContent.parsed j => specTagVals j ++ acc
            | _ => acc) []
        ∨ y ∈ specCategoryVals doc) ∧ y ≠ "") := by
    intro y
    rw [List.mem_filter, mem_kwFromCategory, hmem y, mem_kwFromArticle, mem_kwFromMeta]
    simp [or_assoc]
  have hmemspec : ∀ y, y ∈ ((specMetaVals (findMetaName doc "keywords")
        ++ specMetaVals (findMetaProp doc "article:tag")
        ++ doc.scripts.foldr (fun sc acc =>
            match sc with
            | ScriptContent.parsed j => specTagVals j ++ acc
            | _ => acc) []
        ++ specCategoryVals doc).filter (fun k => k ≠ "")).dedup ↔
      ((y ∈ specMetaVals (findMetaName doc "keywords")
        ∨ y ∈ specMetaVals (findMetaProp doc "article:tag")
        ∨ y ∈ doc.scripts.foldr (fun sc acc =>
            match sc with
            | ScriptContent.parsed j => specTagVals j ++ acc
            | _ => acc) []
        ∨ y ∈ specCategoryVals doc) ∧ y ≠ "") := by
    intro y
    rw [List.mem_dedup, List.mem_filter]
    simp [List.mem_append, or_assoc]
  have hsame : ∀ y, y ∈ (kwFromCategory doc s').filter (fun k => k ≠ "") ↔
      y ∈ ((specMetaVals (findMetaName doc "keywords")
        ++ specMetaVals (findMetaProp doc "article:tag")
        ++ doc.scripts.foldr (fun sc acc =>
            match sc with
            | ScriptContent.parsed j => specTagVals j ++ acc
            | _ => acc) []
        ++ specCategoryVals doc).filter (fun k => k ≠ "")).dedup :=
    fun y => (hmemcode y).trans (hmemspec y).symm
  have hsort := sortStrings_eq_of_same_mem _ _ hndcode (List.nodup_dedup _) hsame
  have hnil : ((kwFromCategory doc s').filter (fun k => k ≠ "") = [])
      ↔ (((specMetaVals (findMetaName doc "keywords")
        ++ specMetaVals (findMetaProp doc "article:tag")
        ++ doc.scripts.foldr (fun sc acc =>
            match sc with
            | ScriptContent.parsed j => specTagVals j ++ acc
            | _ => acc) []
        ++ specCategoryVals doc).filter (fun k => k ≠ "")).dedup = []) := by
    rw [List.eq_nil_iff_forall_not_mem, List.eq_nil_iff_forall_not_mem]
    constructor
    · intro h0 y hy
      exact h0 y ((hsame y).mpr hy)
    · intro h0 y hy
      exact h0 y ((hsame y).mp hy)
  unfold extract_keywords
  rw [hok]
  dsimp only
  unfold keywordsSpec
  dsimp only
  by_cases hemp : (kwFromCategory doc s').filter (fun k => k ≠ "") = []
  · rw [if_pos (by simpa [List.isEmpty_iff] using hemp),
      if_pos (by simpa [List.isEmpty_iff] using hnil.mp hemp)]
  · rw [if_neg (by simpa [List.isEmpty_iff] using hemp),
      if_neg (by simpa [List.isEmpty_iff] using (hnil.not.mp hemp)), hsort]

/-- C8 counterexample: on a page whose `keywords` meta tag reads
`"Shoes, shoes, Running"` but that also carries one JSON-LD script tag
without string content, `extract_keywords` raises `TypeError` (uncaught by
its `except` clause) instead of returning the union `"running, shoes"`
that the claim describes. -/
theorem extract_keywords_raises_on_absent_script :
    extract_keywords kwAbsentDoc = Except.error PExc.typeError
    ∧ keywordsSpec kwAbsentDoc = some "running, shoes"
    ∧ (Except.error PExc.typeError : Except PExc (Option String))
        ≠ Except.ok (some "running, shoes") :=
  ⟨rfl, rfl, fun hcon => Except.noConfusion hcon⟩

/-- C8 witness: the amended theorem applied to the claim's own example
page, whose meta keywords are `"Shoes, shoes, Running"`. -/
theorem extract_keywords_matches_spec_witness :
    extract_keywords kwDoc = Except.ok (keywordsSpec kwDoc)
    ∧ keywordsSpec kwDoc = some "running, shoes" :=
  ⟨extract_keywords_matches_spec kwDoc (fun sc h => absurd h (List.not_mem_nil sc)),
   rfl⟩
